import Mathlib

/-!
# EPD BLE service (`src/EPD/EPD_ble.c`)

A shallow embedding of the command dispatcher and of the connection handlers of the
e-paper BLE service, followed by theorems about them.

Conventions of the embedding.

* Bytes (`uint8_t`) and handles/lengths (`uint16_t`) are natural numbers. The only
  arithmetic the source performs on them is on its two loop counters: the 16-bit counter
  of the SEND_DATA loop is reduced modulo `2 ^ 16` explicitly, and the 8-bit counter of
  the INIT scan modulo `2 ^ 8` in `driver_scan_loop`.
* A pointer to a driver descriptor (`p_epd->driver`) is `Option epd_driver_t`: `none` is
  `NULL`, `some d` points at the descriptor `d`.
* The buffer pointer `p_data` is `Option (List Nat)`: `none` is `NULL`. Reading an index
  the buffer does not have, and calling through a `NULL` driver pointer, are undefined
  behaviour in C; here they make the function return an error of type `Fault`.
* Calls into the external collaborators (driver functions, hardware layer, delay) are
  recorded, in program order, in `World.trace`. Each hardware call records the pin
  globals as they are at the moment of the call. `NRF_LOG_PRINTF` diagnostics are not
  recorded.
-/

namespace EPD

/-! ## Constants -/

/-- Modelled from the spec: opcode `0x01` of the wire format table (the enum lives in
`EPD_ble.h`, which is not part of the sources). -/
def EPD_CMD_SET_PINS : Nat := 0x01
/-- Modelled from the spec: opcode `0x02` of the wire format table. -/
def EPD_CMD_INIT : Nat := 0x02
/-- Modelled from the spec: opcode `0x03` of the wire format table. -/
def EPD_CMD_CLEAR : Nat := 0x03
/-- Modelled from the spec: opcode `0x04` of the wire format table. -/
def EPD_CMD_SEND_COMMAND : Nat := 0x04
/-- Modelled from the spec: opcode `0x05` of the wire format table. -/
def EPD_CMD_SEND_DATA : Nat := 0x05
/-- Modelled from the spec: opcode `0x06` of the wire format table. -/
def EPD_CMD_DISPLAY : Nat := 0x06
/-- Modelled from the spec: opcode `0x07` of the wire format table. -/
def EPD_CMD_SLEEP : Nat := 0x07

/-- Modelled from the spec: driver id 0, "monochrome variant A" (declared in
`EPD_ble.h`, which is not part of the sources). -/
def EPD_DRIVER_4IN2 : Nat := 0
/-- Modelled from the spec: driver id 1, "monochrome variant B". -/
def EPD_DRIVER_4IN2_V2 : Nat := 1
/-- Modelled from the spec: driver id 2, "bicolor variant". -/
def EPD_DRIVER_4IN2B_V2 : Nat := 2

/-- The SoftDevice's "no connection" handle (`ble_types.h`). -/
def BLE_CONN_HANDLE_INVALID : Nat := 0xFFFF

/-- The SoftDevice's success code (`nrf_error.h`). -/
def NRF_SUCCESS : Nat := 0
/-- The SoftDevice's null-pointer error code, `NRF_ERROR_BASE_NUM + 14`. -/
def NRF_ERROR_NULL : Nat := 14

/-! ## Data model -/

/-- The functions the driver table refers to; they are external to this file and are
only ever called through the table. -/
inductive DriverFn where
  | EPD_4IN2_Init | EPD_4IN2_Clear | EPD_4IN2_SendCommand | EPD_4IN2_SendData
  | EPD_4IN2_UpdateDisplay | EPD_4IN2_Sleep
  | EPD_4IN2_V2_Init | EPD_4IN2_V2_Clear | EPD_4IN2_V2_SendCommand | EPD_4IN2_V2_SendData
  | EPD_4IN2_V2_UpdateDisplay | EPD_4IN2_V2_Sleep
  | EPD_4IN2B_V2_Init | EPD_4IN2B_V2_Clear | EPD_4IN2B_V2_SendCommand
  | EPD_4IN2B_V2_SendData | EPD_4IN2B_V2_UpdateDisplay | EPD_4IN2B_V2_Sleep
  deriving DecidableEq, Repr

/-- One row of the driver table: `{id, init, clear, send_command, send_data, display,
sleep}`, in the order of the initialisers of `epd_drivers`. -/
structure epd_driver_t where
  id : Nat
  init : DriverFn
  clear : DriverFn
  send_command : DriverFn
  send_data : DriverFn
  display : DriverFn
  sleep : DriverFn
  deriving DecidableEq, Repr

open DriverFn in
/-- The table `static epd_driver_t epd_drivers[]`. -/
def epd_drivers : List epd_driver_t :=
  [ ⟨EPD_DRIVER_4IN2, EPD_4IN2_Init, EPD_4IN2_Clear,
     EPD_4IN2_SendCommand, EPD_4IN2_SendData,
     EPD_4IN2_UpdateDisplay, EPD_4IN2_Sleep⟩,
    ⟨EPD_DRIVER_4IN2_V2, EPD_4IN2_V2_Init, EPD_4IN2_V2_Clear,
     EPD_4IN2_V2_SendCommand, EPD_4IN2_V2_SendData,
     EPD_4IN2_V2_UpdateDisplay, EPD_4IN2_V2_Sleep⟩,
    ⟨EPD_DRIVER_4IN2B_V2, EPD_4IN2B_V2_Init, EPD_4IN2B_V2_Clear,
     EPD_4IN2B_V2_SendCommand, EPD_4IN2B_V2_SendData,
     EPD_4IN2B_V2_UpdateDisplay, EPD_4IN2B_V2_Sleep⟩ ]

/-- The seven pin globals written by SET_PINS. -/
structure PinConfig where
  EPD_MOSI_PIN : Nat
  EPD_SCLK_PIN : Nat
  EPD_CS_PIN : Nat
  EPD_DC_PIN : Nat
  EPD_RST_PIN : Nat
  EPD_BUSY_PIN : Nat
  EPD_BS_PIN : Nat
  deriving DecidableEq, Repr

/-- The handles of the characteristic (`ble_gatts_char_handles_t`), as far as the
service reads them. -/
structure char_handles_t where
  value_handle : Nat
  cccd_handle : Nat
  deriving DecidableEq, Repr

/-- The service structure `ble_epd_t`, with the fields `EPD_ble.c` uses. -/
structure ble_epd_t where
  service_handle : Nat
  char_handles : char_handles_t
  conn_handle : Nat
  is_notification_enabled : Bool
  driver : Option epd_driver_t
  deriving DecidableEq, Repr

/-- A call that leaves this file. -/
inductive Effect where
  /-- A call `f()` through a slot of the selected driver. -/
  | call (f : DriverFn)
  /-- A call `f(b)` through a slot of the selected driver. -/
  | call_byte (f : DriverFn) (b : Nat)
  /-- The call `DEV_Module_Init()`, with the pin globals it finds. -/
  | DEV_Module_Init (pins : PinConfig)
  /-- The call `DEV_Module_Exit()`, with the pin globals it finds. -/
  | DEV_Module_Exit (pins : PinConfig)
  /-- The call `DEV_Delay_ms(ms)`. -/
  | DEV_Delay_ms (ms : Nat)
  deriving DecidableEq, Repr

/-- Undefined behaviour the C code can run into, and exhaustion of the loop fuel. -/
inductive Fault where
  /-- A member of `p_epd->driver` is read while `p_epd->driver == NULL`. -/
  | null_driver
  /-- An index is read that the buffer behind `p_data` does not have. -/
  | out_of_bounds
  /-- The fuel given to a loop was used up before the loop condition failed. -/
  | out_of_fuel
  deriving DecidableEq, Repr

deriving instance DecidableEq for Except

/-- Everything the handlers can read or write: the service structure behind `p_epd`,
the pin globals, and the calls made so far (oldest first). -/
structure World where
  epd : ble_epd_t
  pins : PinConfig
  trace : List Effect
  deriving DecidableEq, Repr

/-- Append one call to the trace. -/
def World.emit (w : World) (e : Effect) : World :=
  { w with trace := w.trace ++ [e] }

/-- The events `ble_epd_on_ble_evt` distinguishes (`ble_evt_t`). -/
inductive ble_evt_t where
  /-- The event `BLE_GAP_EVT_CONNECTED` with `evt.gap_evt.conn_handle`. -/
  | BLE_GAP_EVT_CONNECTED (conn_handle : Nat)
  /-- The event `BLE_GAP_EVT_DISCONNECTED`. -/
  | BLE_GAP_EVT_DISCONNECTED
  /-- The event `BLE_GATTS_EVT_WRITE` with the fields `handle`, `len` and `data` of
  `evt.gatts_evt.params.write`. -/
  | BLE_GATTS_EVT_WRITE (handle : Nat) (len : Nat) (data : List Nat)
  /-- Any other event id. -/
  | other (evt_id : Nat)
  deriving DecidableEq, Repr

/-! ## The handlers -/

/-- The function `on_connect`. -/
def on_connect (w : World) (conn_handle : Nat) : World :=
  let w1 := { w with epd := { w.epd with conn_handle := conn_handle } }
  w1.emit (.DEV_Module_Init w1.pins)

/-- The function `on_disconnect`. -/
def on_disconnect (w : World) : World :=
  let w1 := { w with epd := { w.epd with conn_handle := BLE_CONN_HANDLE_INVALID } }
  w1.emit (.DEV_Module_Exit w1.pins)

/-- The read `p_data[i]`. -/
def read_byte (p_data : List Nat) (i : Nat) : Except Fault Nat :=
  match p_data[i]? with
  | some b => .ok b
  | none => .error .out_of_bounds

/-- The read of a member of `*p_epd->driver`. -/
def deref_driver (w : World) : Except Fault epd_driver_t :=
  match w.epd.driver with
  | some d => .ok d
  | none => .error .null_driver

/-- The scan of INIT, `for (i = 0; i < ARRAY_SIZE(epd_drivers); i++) if
(epd_drivers[i].id == p_data[1]) p_epd->driver = &epd_drivers[i];`, over the rows of a
table `reg` from first to last, starting from the current value of `p_epd->driver`. -/
def driver_scan (reg : List epd_driver_t) (id : Nat) (driver : Option epd_driver_t) :
    Option epd_driver_t :=
  reg.foldl (fun drv row => if row.id = id then some row else drv) driver

/-- The loop of SEND_DATA, `for (UWORD i = 0; i < length - 1; i++)
p_epd->driver->send_data(p_data[i + 1]);`, from counter value `i` on. The comparison is
made on `int`, as in C; the increment of the 16-bit counter wraps. -/
def send_data_loop (p_data : List Nat) (length : Nat) :
    Nat → Nat → World → Except Fault World
  | 0, _, _ => .error .out_of_fuel
  | fuel + 1, i, w =>
    if (i : Int) < (length : Int) - 1 then do
      let d ← deref_driver w
      let b ← read_byte p_data (i + 1)
      send_data_loop p_data length fuel ((i + 1) % 65536) (w.emit (.call_byte d.send_data b))
    else
      .ok w

/-- The function `epd_service_process`. -/
def epd_service_process (w : World) (p_data : Option (List Nat)) (length : Nat) :
    Except Fault World :=
  match p_data with
  | none => .ok w
  | some buf =>
    if length ≤ 0 then .ok w
    else do
      let op ← read_byte buf 0
      if op = EPD_CMD_SET_PINS then
        if length < 8 then .ok w
        else do
          let b1 ← read_byte buf 1
          let b2 ← read_byte buf 2
          let b3 ← read_byte buf 3
          let b4 ← read_byte buf 4
          let b5 ← read_byte buf 5
          let b6 ← read_byte buf 6
          let b7 ← read_byte buf 7
          let w1 : World := { w with pins := ⟨b1, b2, b3, b4, b5, b6, b7⟩ }
          let w2 := w1.emit (.DEV_Module_Exit w1.pins)
          .ok (w2.emit (.DEV_Module_Init w2.pins))
      else if op = EPD_CMD_INIT then do
        let w1 ←
          if length > 1 then do
            let id ← read_byte buf 1
            pure { w with epd := { w.epd with driver := driver_scan epd_drivers id w.epd.driver } }
          else pure w
        let w2 : World :=
          if w1.epd.driver = none then
            { w1 with epd := { w1.epd with driver := epd_drivers.head? } }
          else w1
        let d ← deref_driver w2
        .ok (w2.emit (.call d.init))
      else if op = EPD_CMD_CLEAR then do
        let d ← deref_driver w
        .ok (w.emit (.call d.clear))
      else if op = EPD_CMD_SEND_COMMAND then
        if length < 2 then .ok w
        else do
          let d ← deref_driver w
          let b ← read_byte buf 1
          .ok (w.emit (.call_byte d.send_command b))
      else if op = EPD_CMD_SEND_DATA then
        send_data_loop buf length length 0 w
      else if op = EPD_CMD_DISPLAY then do
        let d ← deref_driver w
        .ok ((w.emit (.call d.display)).emit (.DEV_Delay_ms 500))
      else if op = EPD_CMD_SLEEP then do
        let d ← deref_driver w
        .ok ((w.emit (.call d.sleep)).emit (.DEV_Delay_ms 200))
      else .ok w

/-- The SDK helper `ble_srv_is_notification_enabled` (`ble_srv_common.h`): decode the
little-endian 16-bit CCCD value and test the bit `BLE_GATT_HVX_NOTIFICATION = 0x01`. -/
def ble_srv_is_notification_enabled (p_encoded_data : List Nat) : Except Fault Bool := do
  let b0 ← read_byte p_encoded_data 0
  let b1 ← read_byte p_encoded_data 1
  .ok (decide (((b0 ||| (b1 <<< 8)) &&& 0x01) ≠ 0))

/-- The function `on_write`, on the fields `handle`, `len` and `data` of the write
event. -/
def on_write (w : World) (handle len : Nat) (data : List Nat) : Except Fault World :=
  if handle = w.epd.char_handles.cccd_handle ∧ len = 2 then do
    let en ← ble_srv_is_notification_enabled data
    if en then
      .ok { w with epd := { w.epd with is_notification_enabled := true } }
    else
      .ok { w with epd := { w.epd with is_notification_enabled := false } }
  else if handle = w.epd.char_handles.value_handle then
    epd_service_process w (some data) len
  else
    .ok w

/-- The function `ble_epd_on_ble_evt`. The world `w` holds the structure `p_epd` points
to, so `p_epd` is not `NULL` here; `p_ble_evt = none` is the `NULL` event pointer. -/
def ble_epd_on_ble_evt (w : World) (p_ble_evt : Option ble_evt_t) : Except Fault World :=
  match p_ble_evt with
  | none => .ok w
  | some (.BLE_GAP_EVT_CONNECTED conn_handle) => .ok (on_connect w conn_handle)
  | some .BLE_GAP_EVT_DISCONNECTED => .ok (on_disconnect w)
  | some (.BLE_GATTS_EVT_WRITE handle len data) => on_write w handle len data
  | some (.other _) => .ok w

/-- What the three SoftDevice calls of `epd_service_init` give back: the error code of
`sd_ble_uuid_vs_add`, the error code and the service handle of
`sd_ble_gatts_service_add`, the error code and the handles of
`sd_ble_gatts_characteristic_add`. -/
structure SoftDevice where
  uuid_vs_add : Nat
  service_add : Nat × Nat
  characteristic_add : Nat × char_handles_t

/-- The function `epd_service_init`: the error code it returns and the service
structure it leaves. -/
def epd_service_init (sd : SoftDevice) (p_epd : ble_epd_t) : Nat × ble_epd_t :=
  if sd.uuid_vs_add ≠ NRF_SUCCESS then (sd.uuid_vs_add, p_epd)
  else
    let p1 := { p_epd with service_handle := sd.service_add.2 }
    if sd.service_add.1 ≠ NRF_SUCCESS then (sd.service_add.1, p1)
    else (sd.characteristic_add.1, { p1 with char_handles := sd.characteristic_add.2 })

/-- The function `ble_epd_init`: the error code it returns and the service structure it
leaves (`none` for `p_epd == NULL`). -/
def ble_epd_init (sd : SoftDevice) (p_epd : Option ble_epd_t) : Nat × Option ble_epd_t :=
  match p_epd with
  | none => (NRF_ERROR_NULL, none)
  | some e =>
    let e1 := { e with conn_handle := BLE_CONN_HANDLE_INVALID,
                       is_notification_enabled := false }
    let r := epd_service_init sd e1
    (r.1, some r.2)

/-- Handle a sequence of events with `ble_epd_on_ble_evt`, one after the other. -/
def run_events (w : World) : List ble_evt_t → Except Fault World
  | [] => .ok w
  | e :: es => do
    let w1 ← ble_epd_on_ble_evt w (some e)
    run_events w1 es

/-- Process a sequence of value writes with `epd_service_process`, one after the other;
each write is a buffer together with its length. -/
def process_writes (w : World) : List (List Nat) → Except Fault World
  | [] => .ok w
  | buf :: bufs => do
    let w1 ← epd_service_process w (some buf) buf.length
    process_writes w1 bufs

/-- A service structure with the given driver selection, used in the examples. -/
def sample_epd (driver : Option epd_driver_t) (notif : Bool) (conn : Nat) : ble_epd_t :=
  { service_handle := 12, char_handles := ⟨13, 14⟩, conn_handle := conn,
    is_notification_enabled := notif, driver := driver }

/-- A world around `sample_epd` with an empty trace, used in the examples. -/
def sample_world (driver : Option epd_driver_t) (notif : Bool) (conn : Nat) : World :=
  { epd := sample_epd driver notif conn, pins := ⟨1, 2, 3, 4, 5, 6, 7⟩, trace := [] }

/-- Event sequences in which every connect carries a handle other than
`BLE_CONN_HANDLE_INVALID`, writes arrive only while connected, and every disconnect
arrives while the peer is unsubscribed. The first flag says whether a connection is
open; the second whether the peer is subscribed, which is what the latest write of
exactly 2 bytes to the handle `cccd` asked for (bit 0 of its first byte). -/
def disconnects_unsubscribed (cccd : Nat) : Bool → Bool → List ble_evt_t → Bool
  | _, _, [] => true
  | _, s, .BLE_GAP_EVT_CONNECTED h :: rest =>
    decide (h ≠ BLE_CONN_HANDLE_INVALID) && disconnects_unsubscribed cccd true s rest
  | _, s, .BLE_GAP_EVT_DISCONNECTED :: rest =>
    !s && disconnects_unsubscribed cccd false s rest
  | c, s, .BLE_GATTS_EVT_WRITE handle len data :: rest =>
    c && disconnects_unsubscribed cccd c
      (if handle = cccd ∧ len = 2 then decide (data.headD 0 % 2 = 1) else s) rest
  | c, s, .other _ :: rest => disconnects_unsubscribed cccd c s rest

/-- A SoftDevice whose three calls succeed and hand out the handles of `sample_epd`. -/
def sample_sd : SoftDevice :=
  { uuid_vs_add := 0, service_add := (0, 12), characteristic_add := (0, ⟨13, 14⟩) }

/-! ## The outbound notifier -/

/-- The SoftDevice's invalid-parameter error code, `NRF_ERROR_BASE_NUM + 7`. -/
def NRF_ERROR_INVALID_PARAM : Nat := 7
/-- The SoftDevice's invalid-state error code, `NRF_ERROR_BASE_NUM + 8`. -/
def NRF_ERROR_INVALID_STATE : Nat := 8
/-- The SoftDevice's handle-value operation "notification" (`ble_gatt.h`). -/
def BLE_GATT_HVX_NOTIFICATION : Nat := 0x01

/-- The parameter block `ble_gatts_hvx_params_t` as `ble_epd_string_send` fills it:
`p_len` holds the value of the local `length` it points to, `p_data` is the pointer
`p_string` (`none` for `NULL`), and `offset` is what `memset` left. -/
structure ble_gatts_hvx_params_t where
  handle : Nat
  type : Nat
  offset : Nat
  p_len : Nat
  p_data : Option (List Nat)
  deriving DecidableEq, Repr

/-- The function `ble_epd_string_send`: the code it returns and the calls of
`sd_ble_gatts_hvx` it makes (connection handle and parameter block of each). The maximum
`BLE_EPD_MAX_DATA_LEN` is declared in `EPD_ble.h`, which is not part of the sources, and
is a parameter here; so is the return value of the SoftDevice call. -/
def ble_epd_string_send (BLE_EPD_MAX_DATA_LEN : Nat)
    (sd_ble_gatts_hvx : Nat → ble_gatts_hvx_params_t → Nat)
    (p_epd : Option ble_epd_t) (p_string : Option (List Nat)) (length : Nat) :
    Nat × List (Nat × ble_gatts_hvx_params_t) :=
  match p_epd with
  | none => (NRF_ERROR_NULL, [])
  | some e =>
    if e.conn_handle = BLE_CONN_HANDLE_INVALID ∨ e.is_notification_enabled = false then
      (NRF_ERROR_INVALID_STATE, [])
    else if length > BLE_EPD_MAX_DATA_LEN then
      (NRF_ERROR_INVALID_PARAM, [])
    else
      let hvx_params : ble_gatts_hvx_params_t :=
        { handle := e.char_handles.value_handle,
          type := BLE_GATT_HVX_NOTIFICATION,
          offset := 0,
          p_len := length,
          p_data := p_string }
      (sd_ble_gatts_hvx e.conn_handle hvx_params, [(e.conn_handle, hvx_params)])

/-! ## The hardware layer as one boolean -/

/-- Modelled from the spec: the hardware layer (`DEV_Module_Init` and `DEV_Module_Exit`
are not part of the sources) is acquired after `DEV_Module_Init`, released after
`DEV_Module_Exit`, and untouched by every other call. -/
def hw_step (acquired : Bool) : Effect → Bool
  | .DEV_Module_Init _ => true
  | .DEV_Module_Exit _ => false
  | _ => acquired

/-- Modelled from the spec: whether the hardware layer is acquired after the calls of a
trace, starting released. -/
def hw_acquired (trace : List Effect) : Bool :=
  trace.foldl hw_step false

/-- Event sequences in which connects and disconnects alternate, every connect carries a
handle other than `BLE_CONN_HANDLE_INVALID`, and writes arrive only while connected; the
flag says whether the sequence starts connected. -/
def alternating : Bool → List ble_evt_t → Bool
  | _, [] => true
  | false, .BLE_GAP_EVT_CONNECTED h :: rest =>
    decide (h ≠ BLE_CONN_HANDLE_INVALID) && alternating true rest
  | true, .BLE_GAP_EVT_CONNECTED _ :: _ => false
  | true, .BLE_GAP_EVT_DISCONNECTED :: rest => alternating false rest
  | false, .BLE_GAP_EVT_DISCONNECTED :: _ => false
  | c, .BLE_GATTS_EVT_WRITE _ _ _ :: rest => c && alternating c rest
  | c, .other _ :: rest => alternating c rest

/-! ## The driver lookup in other forms -/

/-- The scan of INIT with its counter spelled out, `for (uint8_t i = 0; i <
ARRAY_SIZE(reg); i++) if (reg[i].id == id) driver = &reg[i];`, from counter value `i`
on: the 8-bit counter wraps on increment. -/
def driver_scan_loop (reg : List epd_driver_t) (id : Nat) :
    Nat → Nat → Option epd_driver_t → Except Fault (Option epd_driver_t)
  | 0, _, _ => .error .out_of_fuel
  | fuel + 1, i, driver =>
    if i < reg.length then
      match reg[i]? with
      | some row =>
        driver_scan_loop reg id fuel ((i + 1) % 256) (if row.id = id then some row else driver)
      | none => .error .out_of_bounds
    else
      .ok driver

/-- The lookup as the spec words it ("last match wins if ids collide"): the last row of
the table whose id is the requested one if there is such a row, and the previous
selection otherwise. -/
def last_match_wins (reg : List epd_driver_t) (id : Nat) (prev : Option epd_driver_t) :
    Option epd_driver_t :=
  match (reg.filter (fun row => decide (row.id = id))).getLast? with
  | some row => some row
  | none => prev

/-! ## Auxiliary lemmas -/

theorem bind_ok_eq (w : World) (f : World → Except Fault World) :
    ((Except.ok w : Except Fault World) >>= f) = f w := rfl

theorem process_underflow (w : World) (buf : List Nat) (length : Nat)
    (h : (buf[0]? = some EPD_CMD_SET_PINS ∧ length < 8) ∨
         (buf[0]? = some EPD_CMD_SEND_COMMAND ∧ length < 2)) :
    epd_service_process w (some buf) length = .ok w := by
  rcases h with ⟨h0, hl⟩ | ⟨h0, hl⟩
  · by_cases hz : length ≤ 0
    · simp [epd_service_process, hz]
    · simp [epd_service_process, hz, read_byte, h0, hl, bind, Except.bind]
  · by_cases hz : length ≤ 0
    · simp [epd_service_process, hz]
    · simp [epd_service_process, hz, read_byte, h0, hl, bind, Except.bind,
        EPD_CMD_SEND_COMMAND, EPD_CMD_SET_PINS, EPD_CMD_INIT, EPD_CMD_CLEAR]

theorem send_data_loop_frame (p_data : List Nat) (length : Nat) :
    ∀ (fuel i : Nat) (w w1 : World), send_data_loop p_data length fuel i w = .ok w1 →
      w1.epd = w.epd ∧ w1.pins = w.pins := by
  intro fuel
  induction fuel with
  | zero => intro i w w1 h; simp [send_data_loop] at h
  | succ n ih =>
    intro i w w1 h
    rw [send_data_loop] at h
    split at h
    · cases hd : deref_driver w with
      | error f => simp [hd, bind, Except.bind] at h
      | ok d =>
        cases hb : read_byte p_data (i + 1) with
        | error f => simp [hd, hb, bind, Except.bind] at h
        | ok b =>
          simp only [hd, hb, bind, Except.bind] at h
          have := ih _ _ _ h
          simpa [World.emit] using this
    · cases h; exact ⟨rfl, rfl⟩

theorem bind_eq_ok_iff {α β : Type} (x : Except Fault α) (f : α → Except Fault β) (b : β) :
    (x >>= f) = .ok b ↔ ∃ a, x = .ok a ∧ f a = .ok b := by
  cases x with
  | error e => simp [bind, Except.bind]
  | ok a => simp [bind, Except.bind]

theorem process_keeps_connection (w w1 : World) (p_data : Option (List Nat)) (length : Nat)
    (h : epd_service_process w p_data length = .ok w1) :
    w1.epd.conn_handle = w.epd.conn_handle ∧
    w1.epd.is_notification_enabled = w.epd.is_notification_enabled := by
  unfold epd_service_process at h
  split at h
  · cases h; exact ⟨rfl, rfl⟩
  · rename_i buf
    split at h
    · cases h; exact ⟨rfl, rfl⟩
    · rw [bind_eq_ok_iff] at h
      obtain ⟨op, -, h⟩ := h
      split_ifs at h
      all_goals (try simp only [bind_eq_ok_iff, pure, Except.pure] at h)
      all_goals first
        | (cases h; exact ⟨rfl, rfl⟩)
        | (have hf := send_data_loop_frame _ _ _ _ _ _ h
           exact ⟨by rw [hf.1], by rw [hf.1]⟩)
        | (obtain ⟨_, _, h⟩ := h; cases h; exact ⟨rfl, rfl⟩)
        | (obtain ⟨_, _, _, _, h⟩ := h; cases h; exact ⟨rfl, rfl⟩)
        | (obtain ⟨_, _, _, _, _, _, _, _, _, _, _, _, _, _, h⟩ := h; cases h
           exact ⟨rfl, rfl⟩)
        | (obtain ⟨_, _, a, ha, _, _, h⟩ := h
           injection ha with ha; injection h with h; subst ha; subst h
           constructor <;> (simp only [World.emit]; split_ifs <;> rfl))
        | (obtain ⟨a, ha, _, _, h⟩ := h
           injection ha with ha; injection h with h; subst ha; subst h
           constructor <;> (simp only [World.emit]; split_ifs <;> rfl))

theorem on_write_keeps_handle (w w1 : World) (handle len : Nat) (data : List Nat)
    (h : on_write w handle len data = .ok w1) :
    w1.epd.conn_handle = w.epd.conn_handle := by
  unfold on_write at h
  split_ifs at h
  · rw [bind_eq_ok_iff] at h
    obtain ⟨en, -, h⟩ := h
    split_ifs at h <;> (injection h with h; subst h; rfl)
  · exact (process_keeps_connection _ _ _ _ h).1
  · injection h with h; subst h; rfl

theorem init_state_disconnected (sd : SoftDevice) (e e0 : ble_epd_t)
    (h : (ble_epd_init sd (some e)).2 = some e0) :
    e0.conn_handle = BLE_CONN_HANDLE_INVALID ∧ e0.is_notification_enabled = false := by
  simp only [ble_epd_init, epd_service_init, Option.some.injEq] at h
  subst h
  split_ifs <;> exact ⟨rfl, rfl⟩

theorem send_data_loop_sends_payload (d : epd_driver_t) (op : Nat) (payload : List Nat)
    (hlen : payload.length + 1 < 65536) :
    ∀ (fuel i : Nat) (w : World), w.epd.driver = some d → i ≤ payload.length →
      payload.length - i < fuel →
      send_data_loop (op :: payload) (payload.length + 1) fuel i w
        = .ok { w with trace := w.trace ++ (payload.drop i).map (.call_byte d.send_data) } := by
  intro fuel
  induction fuel with
  | zero => intro i w _ _ hf; omega
  | succ n ih =>
    intro i w hd hi hf
    rw [send_data_loop]
    by_cases hlt : i < payload.length
    · have hc : (i : Int) < ((payload.length + 1 : Nat) : Int) - 1 := by omega
      have hmod : (i + 1) % 65536 = i + 1 := Nat.mod_eq_of_lt (by omega)
      have hrd : read_byte (op :: payload) (i + 1) = .ok payload[i] := by
        simp [read_byte, List.getElem?_eq_getElem hlt]
      have hdd : deref_driver w = .ok d := by simp [deref_driver, hd]
      rw [if_pos hc, hdd, hrd, hmod]
      simp only [bind, Except.bind]
      rw [ih (i + 1) _ (by simpa [World.emit] using hd) (by omega) (by omega)]
      rw [List.drop_eq_getElem_cons hlt]
      simp only [World.emit, List.map_cons, List.append_assoc, List.singleton_append]
    · have hc : ¬ (i : Int) < ((payload.length + 1 : Nat) : Int) - 1 := by omega
      have hi2 : payload.length ≤ i := by omega
      rw [if_neg hc]
      simp [List.drop_eq_nil_of_le hi2]

theorem cccd_enable_bit (b0 b1 : Nat) :
    decide (((b0 ||| (b1 <<< 8)) &&& 0x01) ≠ 0) = decide (b0 % 2 = 1) := by
  have ht : (b0 ||| (b1 <<< 8)).testBit 0 = b0.testBit 0 := by
    rw [Nat.testBit_or, Nat.testBit_shiftLeft]; simp
  have h1 := @Nat.mod_two_eq_one_iff_testBit_zero (b0 ||| (b1 <<< 8))
  have h2 := @Nat.mod_two_eq_one_iff_testBit_zero b0
  rw [ht] at h1
  have h3 : (b0 ||| b1 <<< 8) % 2 = 1 ↔ b0 % 2 = 1 := h1.trans h2.symm
  rw [Nat.and_one_is_mod, decide_eq_decide]
  have hm := Nat.mod_two_eq_zero_or_one (b0 ||| b1 <<< 8)
  constructor
  · intro h; exact h3.mp (by omega)
  · intro h; have := h3.mpr h; omega

theorem cccd_write_result (w : World) (len : Nat) (b0 b1 : Nat) (rest : List Nat)
    (hlen : len = 2) :
    on_write w w.epd.char_handles.cccd_handle len (b0 :: b1 :: rest)
      = .ok { w with epd := { w.epd with is_notification_enabled := decide (b0 % 2 = 1) } } := by
  subst hlen
  have hb := cccd_enable_bit b0 b1
  simp only [Nat.reduceLeDiff, ne_eq] at hb
  by_cases h : b0 % 2 = 1
  · simp [on_write, ble_srv_is_notification_enabled, read_byte, bind, Except.bind, h] at hb ⊢
  · simp [on_write, ble_srv_is_notification_enabled, read_byte, bind, Except.bind, h] at hb ⊢

theorem read_byte_ok (p_data : List Nat) (i b : Nat) (h : read_byte p_data i = .ok b) :
    p_data[i]? = some b := by
  unfold read_byte at h
  split at h
  · rename_i c hc; injection h with h; rw [hc, h]
  · cases h

theorem driver_scan_result (id : Nat) :
    ∀ (reg : List epd_driver_t) (prev : Option epd_driver_t),
      driver_scan reg id prev = prev ∨ ∃ d ∈ reg, driver_scan reg id prev = some d := by
  intro reg
  induction reg with
  | nil => intro prev; exact Or.inl rfl
  | cons row rest ih =>
    intro prev
    have hstep : driver_scan (row :: rest) id prev
        = driver_scan rest id (if row.id = id then some row else prev) := rfl
    rw [hstep]
    rcases ih (if row.id = id then some row else prev) with h | ⟨d, hd, h⟩
    · by_cases hid : row.id = id
      · right; exact ⟨row, List.mem_cons_self _ _, by rw [h, if_pos hid]⟩
      · left; rw [h, if_neg hid]
    · right; exact ⟨d, List.mem_cons_of_mem _ hd, h⟩

theorem send_data_loop_inv (p_data : List Nat) (length : Nat) :
    ∀ (fuel i : Nat) (w w1 : World), send_data_loop p_data length fuel i w = .ok w1 →
      ∃ tr, (∀ a, tr.foldl hw_step a = a) ∧
        w1 = { epd := w.epd, pins := w.pins, trace := w.trace ++ tr } := by
  intro fuel
  induction fuel with
  | zero => intro i w w1 h; simp [send_data_loop] at h
  | succ n ih =>
    intro i w w1 h
    rw [send_data_loop] at h
    split at h
    · rw [bind_eq_ok_iff] at h
      obtain ⟨d, -, h⟩ := h
      rw [bind_eq_ok_iff] at h
      obtain ⟨b, -, h⟩ := h
      obtain ⟨tr, htr, hw⟩ := ih _ _ _ h
      refine ⟨.call_byte d.send_data b :: tr, fun a => ?_, ?_⟩
      · simpa [hw_step] using htr a
      · simpa [World.emit] using hw
    · injection h with h
      exact ⟨[], fun _ => rfl, by simp [← h]⟩

theorem init_default_result (wa : World) (d : epd_driver_t)
    (hd : deref_driver (if wa.epd.driver = none then
        { wa with epd := { wa.epd with driver := epd_drivers.head? } } else wa) = .ok d) :
    (if wa.epd.driver = none then
        { wa with epd := { wa.epd with driver := epd_drivers.head? } } else wa)
      = { wa with epd := { wa.epd with driver := some d } } ∧
    (wa.epd.driver = some d ∨ d ∈ epd_drivers) := by
  obtain ⟨⟨sh, ch, conn, notif, drv⟩, pins, tr⟩ := wa
  cases drv with
  | none =>
    simp only [if_true, deref_driver] at hd ⊢
    have hh : epd_drivers.head? = some (epd_drivers.get ⟨0, by decide⟩) := rfl
    rw [hh] at hd ⊢
    injection hd with hd
    subst hd
    exact ⟨rfl, Or.inr (by decide)⟩
  | some d0 =>
    simp only [deref_driver] at hd
    have hd2 : d0 = d := by simpa using hd
    subst hd2
    exact ⟨by simp, Or.inl rfl⟩

theorem process_inv (w w1 : World) (buf : List Nat) (length : Nat)
    (h : epd_service_process w (some buf) length = .ok w1) :
    w1 = w ∨
    (buf[0]? = some EPD_CMD_SET_PINS ∧ ∃ p : PinConfig,
      w1 = { epd := w.epd, pins := p,
             trace := w.trace ++ [.DEV_Module_Exit p, .DEV_Module_Init p] }) ∨
    (buf[0]? = some EPD_CMD_INIT ∧ ∃ d : epd_driver_t,
      (w.epd.driver = some d ∨ d ∈ epd_drivers) ∧
      w1 = { epd := { w.epd with driver := some d }, pins := w.pins,
             trace := w.trace ++ [.call d.init] }) ∨
    (buf[0]? ≠ some EPD_CMD_SET_PINS ∧ buf[0]? ≠ some EPD_CMD_INIT ∧ ∃ tr : List Effect,
      (∀ a, tr.foldl hw_step a = a) ∧
      w1 = { epd := w.epd, pins := w.pins, trace := w.trace ++ tr }) := by
  unfold epd_service_process at h
  simp only at h
  split at h
  · injection h with h; exact Or.inl h.symm
  · rw [bind_eq_ok_iff] at h
    obtain ⟨op, hop, h⟩ := h
    have hop := read_byte_ok _ _ _ hop
    have hne : ∀ c : Nat, ¬ op = c → buf[0]? ≠ some c := by
      intro c hc hbc
      rw [hop] at hbc
      injection hbc with hbc
      exact hc hbc
    split_ifs at h with h1 h2 h3 h4 h5 h6 h7 h8 h9 h10
    · injection h with h; exact Or.inl h.symm
    · simp only [bind_eq_ok_iff] at h
      obtain ⟨b1, -, b2, -, b3, -, b4, -, b5, -, b6, -, b7, -, h⟩ := h
      injection h with h
      exact Or.inr (Or.inl ⟨by rw [hop, h1], ⟨b1, b2, b3, b4, b5, b6, b7⟩,
        by simp [← h, World.emit]⟩)
    · simp only [bind_eq_ok_iff, pure, Except.pure] at h
      obtain ⟨id, -, wa, ha, d, hd, h⟩ := h
      injection ha with ha
      injection h with h
      subst ha
      obtain ⟨heq, hmem⟩ := init_default_result _ d hd
      refine Or.inr (Or.inr (Or.inl ⟨by rw [hop, h3], d, ?_, ?_⟩))
      · rcases hmem with hm | hm
        · rcases driver_scan_result id epd_drivers w.epd.driver with hs | ⟨d2, hd2, hs⟩
          · left; rw [← hs]; exact hm
          · right
            have : some d2 = some d := hs.symm.trans hm
            injection this with this
            rw [← this]; exact hd2
        · exact Or.inr hm
      · rw [← h, heq]; rfl
    · simp only [bind_eq_ok_iff, pure, Except.pure] at h
      obtain ⟨wa, ha, d, hd, h⟩ := h
      injection ha with ha
      injection h with h
      subst ha
      obtain ⟨heq, hmem⟩ := init_default_result _ d hd
      refine Or.inr (Or.inr (Or.inl ⟨by rw [hop, h3], d, hmem, ?_⟩))
      rw [← h, heq]; rfl
    · rw [bind_eq_ok_iff] at h
      obtain ⟨d, -, h⟩ := h
      injection h with h
      exact Or.inr (Or.inr (Or.inr ⟨hne _ h1, hne _ h3, [.call d.clear], fun _ => rfl,
        h.symm⟩))
    · injection h with h; exact Or.inl h.symm
    · simp only [bind_eq_ok_iff] at h
      obtain ⟨d, -, b, -, h⟩ := h
      injection h with h
      exact Or.inr (Or.inr (Or.inr ⟨hne _ h1, hne _ h3, [.call_byte d.send_command b],
        fun _ => rfl, h.symm⟩))
    · exact Or.inr (Or.inr (Or.inr ⟨hne _ h1, hne _ h3, send_data_loop_inv _ _ _ _ _ _ h⟩))
    · rw [bind_eq_ok_iff] at h
      obtain ⟨d, -, h⟩ := h
      injection h with h
      exact Or.inr (Or.inr (Or.inr ⟨hne _ h1, hne _ h3,
        [.call d.display, .DEV_Delay_ms 500], fun _ => rfl, by simp [← h, World.emit]⟩))
    · rw [bind_eq_ok_iff] at h
      obtain ⟨d, -, h⟩ := h
      injection h with h
      exact Or.inr (Or.inr (Or.inr ⟨hne _ h1, hne _ h3,
        [.call d.sleep, .DEV_Delay_ms 200], fun _ => rfl, by simp [← h, World.emit]⟩))
    · injection h with h; exact Or.inl h.symm

theorem on_write_inv (w w1 : World) (handle len : Nat) (data : List Nat)
    (h : on_write w handle len data = .ok w1) :
    (∃ b : Bool, w1 = { w with epd := { w.epd with is_notification_enabled := b } }) ∨
    epd_service_process w (some data) len = .ok w1 ∨ w1 = w := by
  unfold on_write at h
  split_ifs at h
  · rw [bind_eq_ok_iff] at h
    obtain ⟨en, -, h⟩ := h
    split_ifs at h <;> (injection h with h; exact Or.inl ⟨_, h.symm⟩)
  · exact Or.inr (Or.inl h)
  · injection h with h; exact Or.inr (Or.inr h.symm)

theorem process_driver (w w1 : World) (p_data : Option (List Nat)) (length : Nat)
    (h : epd_service_process w p_data length = .ok w1) :
    w1.epd.driver = w.epd.driver ∨ ∃ d ∈ epd_drivers, w1.epd.driver = some d := by
  cases p_data with
  | none =>
    simp only [epd_service_process] at h
    injection h with h; subst h; exact Or.inl rfl
  | some buf =>
    rcases process_inv w w1 buf length h with h | ⟨-, p, h⟩ | ⟨-, d, hd, h⟩ | ⟨-, -, tr, -, h⟩
    · subst h; exact Or.inl rfl
    · subst h; exact Or.inl rfl
    · subst h
      rcases hd with hd | hd
      · exact Or.inl hd.symm
      · exact Or.inr ⟨d, hd, rfl⟩
    · subst h; exact Or.inl rfl

theorem step_driver (w w1 : World) (ev : ble_evt_t)
    (h : ble_epd_on_ble_evt w (some ev) = .ok w1) :
    w1.epd.driver = w.epd.driver ∨ ∃ d ∈ epd_drivers, w1.epd.driver = some d := by
  cases ev with
  | BLE_GAP_EVT_CONNECTED hdl =>
    simp only [ble_epd_on_ble_evt] at h
    injection h with h; subst h; exact Or.inl rfl
  | BLE_GAP_EVT_DISCONNECTED =>
    simp only [ble_epd_on_ble_evt] at h
    injection h with h; subst h; exact Or.inl rfl
  | BLE_GATTS_EVT_WRITE handle len data =>
    simp only [ble_epd_on_ble_evt] at h
    rcases on_write_inv _ _ _ _ _ h with ⟨b, hb⟩ | hp | he
    · subst hb; exact Or.inl rfl
    · exact process_driver _ _ _ _ hp
    · subst he; exact Or.inl rfl
  | other id =>
    simp only [ble_epd_on_ble_evt] at h
    injection h with h; subst h; exact Or.inl rfl

theorem run_driver :
    ∀ (evs : List ble_evt_t) (w0 w : World), run_events w0 evs = .ok w →
      w.epd.driver = w0.epd.driver ∨ ∃ d ∈ epd_drivers, w.epd.driver = some d := by
  intro evs
  induction evs with
  | nil =>
    intro w0 w h
    simp only [run_events] at h
    injection h with h; subst h; exact Or.inl rfl
  | cons ev rest ih =>
    intro w0 w h
    rw [run_events, bind_eq_ok_iff] at h
    obtain ⟨w1, h1, hrest⟩ := h
    rcases ih w1 w hrest with hr | hr
    · rcases step_driver _ _ _ h1 with hs | hs
      · exact Or.inl (hr.trans hs)
      · right; rw [hr]; exact hs
    · exact Or.inr hr

theorem process_keeps_pins (w w1 : World) (buf : List Nat) (length : Nat)
    (hop : buf[0]? ≠ some EPD_CMD_SET_PINS)
    (h : epd_service_process w (some buf) length = .ok w1) : w1.pins = w.pins := by
  rcases process_inv w w1 buf length h with h | ⟨h0, -⟩ | ⟨-, d, -, h⟩ | ⟨-, -, tr, -, h⟩
  · subst h; rfl
  · exact absurd h0 hop
  · subst h; rfl
  · subst h; rfl

theorem process_keeps_driver (w w1 : World) (buf : List Nat) (length : Nat)
    (hop : buf[0]? ≠ some EPD_CMD_INIT)
    (h : epd_service_process w (some buf) length = .ok w1) :
    w1.epd.driver = w.epd.driver := by
  rcases process_inv w w1 buf length h with h | ⟨-, p, h⟩ | ⟨h0, -⟩ | ⟨-, -, tr, -, h⟩
  · subst h; rfl
  · subst h; rfl
  · exact absurd h0 hop
  · subst h; rfl

theorem last_match_wins_cons (row : epd_driver_t) (rest : List epd_driver_t) (id : Nat)
    (prev : Option epd_driver_t) :
    last_match_wins (row :: rest) id prev
      = last_match_wins rest id (if row.id = id then some row else prev) := by
  unfold last_match_wins
  by_cases hid : row.id = id
  · rw [List.filter_cons_of_pos (by simpa using hid), if_pos hid, List.getLast?_cons]
    cases (List.filter (fun row => decide (row.id = id)) rest).getLast? <;> rfl
  · rw [List.filter_cons_of_neg (by simpa using hid), if_neg hid]

theorem driver_scan_eq_last_match (id : Nat) :
    ∀ (reg : List epd_driver_t) (prev : Option epd_driver_t),
      driver_scan reg id prev = last_match_wins reg id prev := by
  intro reg
  induction reg with
  | nil => intro prev; rfl
  | cons row rest ih =>
    intro prev
    have hstep : driver_scan (row :: rest) id prev
        = driver_scan rest id (if row.id = id then some row else prev) := rfl
    rw [hstep, ih, last_match_wins_cons]

theorem driver_scan_loop_eq (reg : List epd_driver_t) (id : Nat) (hlen : reg.length ≤ 255) :
    ∀ (fuel i : Nat) (driver : Option epd_driver_t), i ≤ reg.length →
      reg.length - i < fuel →
      driver_scan_loop reg id fuel i driver = .ok (driver_scan (reg.drop i) id driver) := by
  intro fuel
  induction fuel with
  | zero => intro i driver _ hf; omega
  | succ n ih =>
    intro i driver hi hf
    rw [driver_scan_loop]
    by_cases hlt : i < reg.length
    · have hmod : (i + 1) % 256 = i + 1 := Nat.mod_eq_of_lt (by omega)
      rw [if_pos hlt, List.getElem?_eq_getElem hlt]
      simp only [hmod]
      rw [ih (i + 1) _ (by omega) (by omega), List.drop_eq_getElem_cons hlt]
      rfl
    · have hi2 : reg.length ≤ i := by omega
      rw [if_neg hlt, List.drop_eq_nil_of_le hi2]
      rfl

theorem hw_acquired_append (tr new : List Effect) :
    hw_acquired (tr ++ new) = new.foldl hw_step (hw_acquired tr) := by
  unfold hw_acquired
  rw [List.foldl_append]

theorem on_write_trace (w w1 : World) (handle len : Nat) (data : List Nat)
    (h : on_write w handle len data = .ok w1) :
    ∃ tr : List Effect, w1.trace = w.trace ++ tr ∧
      ((∀ a, tr.foldl hw_step a = a) ∨
       ∃ p : PinConfig, tr = [.DEV_Module_Exit p, .DEV_Module_Init p]) := by
  rcases on_write_inv _ _ _ _ _ h with ⟨b, hb⟩ | hp | he
  · subst hb; exact ⟨[], by simp, Or.inl (fun _ => rfl)⟩
  · rcases process_inv _ _ _ _ hp with h | ⟨-, p, h⟩ | ⟨-, d, -, h⟩ | ⟨-, -, tr, htr, h⟩
    · subst h; exact ⟨[], by simp, Or.inl (fun _ => rfl)⟩
    · subst h; exact ⟨_, rfl, Or.inr ⟨p, rfl⟩⟩
    · subst h; exact ⟨_, rfl, Or.inl (fun _ => rfl)⟩
    · subst h; exact ⟨tr, rfl, Or.inl htr⟩
  · subst he; exact ⟨[], by simp, Or.inl (fun _ => rfl)⟩

theorem on_write_keeps_acquired (w w1 : World) (handle len : Nat) (data : List Nat)
    (h : on_write w handle len data = .ok w1) (ha : hw_acquired w.trace = true) :
    hw_acquired w1.trace = true := by
  obtain ⟨tr, htr, hcase⟩ := on_write_trace _ _ _ _ _ h
  rw [htr, hw_acquired_append]
  rcases hcase with hn | ⟨p, hp⟩
  · rw [hn, ha]
  · rw [hp]; rfl

theorem run_events_append (pre suf : List ble_evt_t) :
    ∀ w : World, run_events w (pre ++ suf)
      = (run_events w pre >>= fun w1 => run_events w1 suf) := by
  induction pre with
  | nil => intro w; rfl
  | cons ev rest ih =>
    intro w
    simp only [List.cons_append, run_events]
    cases ble_epd_on_ble_evt w (some ev) with
    | error f => rfl
    | ok w1 => exact ih w1

theorem alternating_initial_segment (suf : List ble_evt_t) :
    ∀ (pre : List ble_evt_t) (c : Bool), alternating c (pre ++ suf) = true →
      alternating c pre = true := by
  intro pre
  induction pre with
  | nil => intro c _; cases c <;> rfl
  | cons ev rest ih =>
    intro c h
    cases ev with
    | BLE_GAP_EVT_CONNECTED hdl =>
      cases c with
      | false =>
        simp only [List.cons_append, alternating, Bool.and_eq_true] at h ⊢
        exact ⟨h.1, ih true h.2⟩
      | true => simp [alternating] at h
    | BLE_GAP_EVT_DISCONNECTED =>
      cases c with
      | false => simp [alternating] at h
      | true =>
        simp only [List.cons_append, alternating] at h ⊢
        exact ih false h
    | BLE_GATTS_EVT_WRITE handle len data =>
      simp only [List.cons_append, alternating, Bool.and_eq_true] at h ⊢
      exact ⟨h.1, ih c h.2⟩
    | other id =>
      simp only [List.cons_append, alternating] at h ⊢
      exact ih c h

theorem hardware_follows_connection_aux :
    ∀ (evs : List ble_evt_t) (c : Bool) (w0 w : World),
      alternating c evs = true → run_events w0 evs = .ok w →
      hw_acquired w0.trace = c → (w0.epd.conn_handle ≠ BLE_CONN_HANDLE_INVALID ↔ c = true) →
      (hw_acquired w.trace = true ↔ w.epd.conn_handle ≠ BLE_CONN_HANDLE_INVALID) := by
  intro evs
  induction evs with
  | nil =>
    intro c w0 w _ hrun ha hc
    simp only [run_events] at hrun
    injection hrun with hrun
    subst hrun
    rw [ha]; exact hc.symm
  | cons ev rest ih =>
    intro c w0 w hwf hrun ha hc
    rw [run_events, bind_eq_ok_iff] at hrun
    obtain ⟨w1, h1, hrest⟩ := hrun
    cases ev with
    | BLE_GAP_EVT_CONNECTED hdl =>
      cases c with
      | true => simp [alternating] at hwf
      | false =>
        simp only [alternating, Bool.and_eq_true, decide_eq_true_eq] at hwf
        simp only [ble_epd_on_ble_evt] at h1
        injection h1 with h1
        subst h1
        refine ih true _ w hwf.2 hrest ?_ ?_
        · simp only [on_connect, World.emit]; rw [hw_acquired_append]; rfl
        · exact ⟨fun _ => rfl, fun _ => hwf.1⟩
    | BLE_GAP_EVT_DISCONNECTED =>
      cases c with
      | false => simp [alternating] at hwf
      | true =>
        simp only [alternating] at hwf
        simp only [ble_epd_on_ble_evt] at h1
        injection h1 with h1
        subst h1
        refine ih false _ w hwf hrest ?_ ?_
        · simp only [on_disconnect, World.emit]; rw [hw_acquired_append]; rfl
        · exact ⟨fun hne => absurd rfl hne, fun hf => by cases hf⟩
    | BLE_GATTS_EVT_WRITE handle len data =>
      simp only [alternating, Bool.and_eq_true] at hwf
      simp only [ble_epd_on_ble_evt] at h1
      obtain ⟨hct, hwf2⟩ := hwf
      subst hct
      refine ih true w1 w hwf2 hrest (on_write_keeps_acquired _ _ _ _ _ h1 ha) ?_
      rw [on_write_keeps_handle _ _ _ _ _ h1]
      exact hc
    | other id =>
      simp only [alternating] at hwf
      simp only [ble_epd_on_ble_evt] at h1
      injection h1 with h1
      subst h1
      exact ih c _ w hwf hrest ha hc

theorem process_keeps_handles (w w1 : World) (p_data : Option (List Nat)) (length : Nat)
    (h : epd_service_process w p_data length = .ok w1) :
    w1.epd.char_handles = w.epd.char_handles := by
  cases p_data with
  | none =>
    simp only [epd_service_process] at h
    injection h with h; subst h; rfl
  | some buf =>
    rcases process_inv w w1 buf length h with h | ⟨-, p, h⟩ | ⟨-, d, -, h⟩ | ⟨-, -, tr, -, h⟩
    all_goals (subst h; rfl)

theorem cccd_decode (data : List Nat) (en : Bool)
    (h : ble_srv_is_notification_enabled data = .ok en) :
    en = decide (data.headD 0 % 2 = 1) := by
  unfold ble_srv_is_notification_enabled at h
  simp only [bind_eq_ok_iff] at h
  obtain ⟨b0, h0, b1, -, h⟩ := h
  injection h with h
  have hb := cccd_enable_bit b0 b1
  simp only [Nat.reduceLeDiff, ne_eq] at hb h
  have hhead : data.headD 0 = b0 := by
    have := read_byte_ok _ _ _ h0
    cases data with
    | nil => simp at this
    | cons x xs => simpa using this
  rw [hhead, ← hb, ← h]

theorem flag_tracks_subscription (cccd : Nat) :
    ∀ (evs : List ble_evt_t) (c s : Bool) (w0 w : World),
      disconnects_unsubscribed cccd c s evs = true → run_events w0 evs = .ok w →
      w0.epd.char_handles.cccd_handle = cccd →
      w0.epd.is_notification_enabled = s →
      (c = true → w0.epd.conn_handle ≠ BLE_CONN_HANDLE_INVALID) →
      (c = false → s = false) →
      w.epd.is_notification_enabled = true → w.epd.conn_handle ≠ BLE_CONN_HANDLE_INVALID := by
  intro evs
  induction evs with
  | nil =>
    intro c s w0 w _ hrun _ hs hc hcs hw
    simp only [run_events] at hrun
    injection hrun with hrun
    subst hrun
    cases c with
    | true => exact hc rfl
    | false => rw [hs, hcs rfl] at hw; cases hw
  | cons ev rest ih =>
    intro c s w0 w hwf hrun hh hs hc hcs
    rw [run_events, bind_eq_ok_iff] at hrun
    obtain ⟨w1, h1, hrest⟩ := hrun
    cases ev with
    | BLE_GAP_EVT_CONNECTED hdl =>
      simp only [disconnects_unsubscribed, Bool.and_eq_true, decide_eq_true_eq] at hwf
      simp only [ble_epd_on_ble_evt] at h1
      injection h1 with h1
      subst h1
      exact ih true s _ w hwf.2 hrest hh hs (fun _ => hwf.1) (fun hf => by cases hf)
    | BLE_GAP_EVT_DISCONNECTED =>
      simp only [disconnects_unsubscribed, Bool.and_eq_true, Bool.not_eq_true'] at hwf
      simp only [ble_epd_on_ble_evt] at h1
      injection h1 with h1
      subst h1
      exact ih false s _ w hwf.2 hrest hh hs (fun hf => by cases hf) (fun _ => hwf.1)
    | BLE_GATTS_EVT_WRITE handle len data =>
      simp only [disconnects_unsubscribed, Bool.and_eq_true] at hwf
      obtain ⟨hct, hwf2⟩ := hwf
      subst hct
      simp only [ble_epd_on_ble_evt] at h1
      unfold on_write at h1
      rw [hh] at h1
      split_ifs at h1 with hcc hv
      · rw [bind_eq_ok_iff] at h1
        obtain ⟨en, hen, h1⟩ := h1
        have hdec := cccd_decode data en hen
        have hw1 : w1 = { w0 with epd := { w0.epd with is_notification_enabled := en } } := by
          cases en <;> (simp only [Bool.false_eq_true, if_false, if_true] at h1
                        injection h1 with h1; exact h1.symm)
        subst hw1
        rw [if_pos hcc] at hwf2
        exact ih true _ _ w hwf2 hrest hh (by rw [← hdec]) hc (fun hf => by cases hf)
      · rw [if_neg hcc] at hwf2
        have hk := process_keeps_connection _ _ _ _ h1
        have hkh := process_keeps_handles _ _ _ _ h1
        exact ih true s w1 w hwf2 hrest (by rw [hkh]; exact hh) (by rw [hk.2]; exact hs)
          (fun ht => by rw [hk.1]; exact hc ht) (fun hf => by cases hf)
      · rw [if_neg hcc] at hwf2
        injection h1 with h1
        subst h1
        exact ih true s _ w hwf2 hrest hh hs hc (fun hf => by cases hf)
    | other id =>
      simp only [disconnects_unsubscribed] at hwf
      simp only [ble_epd_on_ble_evt] at h1
      injection h1 with h1
      subst h1
      exact ih c s _ w hwf hrest hh hs hc hcs

/-! ## Theorems -/

/-- C1: a SET_PINS write shorter than 8 bytes and a SEND_COMMAND write shorter than 2
bytes return the world as it was (service structure, pins and trace of calls all
unchanged), so processing any second write after it gives what the second write alone
gives. -/
theorem underflow_write_is_ignored (w : World) (buf : List Nat) (length : Nat)
    (h : (buf[0]? = some EPD_CMD_SET_PINS ∧ length < 8) ∨
         (buf[0]? = some EPD_CMD_SEND_COMMAND ∧ length < 2)) :
    epd_service_process w (some buf) length = .ok w ∧
    ∀ (p_data2 : Option (List Nat)) (length2 : Nat),
      (epd_service_process w (some buf) length >>= fun w1 =>
        epd_service_process w1 p_data2 length2) = epd_service_process w p_data2 length2 := by
  have h1 := process_underflow w buf length h
  refine ⟨h1, fun p_data2 length2 => ?_⟩
  rw [h1, bind_ok_eq]

/-- C1, at a seven-byte SET_PINS write followed by INIT. -/
theorem underflow_write_is_ignored_witness :
    epd_service_process (sample_world none false 5) (some [1, 10, 11, 12, 13, 14, 15]) 7
      = .ok (sample_world none false 5) ∧
    ∀ (p_data2 : Option (List Nat)) (length2 : Nat),
      (epd_service_process (sample_world none false 5) (some [1, 10, 11, 12, 13, 14, 15]) 7
        >>= fun w1 => epd_service_process w1 p_data2 length2)
      = epd_service_process (sample_world none false 5) p_data2 length2 :=
  underflow_write_is_ignored (sample_world none false 5) [1, 10, 11, 12, 13, 14, 15] 7
    (Or.inl ⟨by decide, by decide⟩)

/-- C2: with no driver selected, the SEND_DATA write `[0x05, 0xAA, 0xBB, 0xCC]` makes
`epd_service_process` read `p_epd->driver->send_data` through the `NULL` driver pointer:
the call is not rejected, it is undefined behaviour. -/
theorem send_data_without_driver_derefs_null (w : World) (h : w.epd.driver = none) :
    epd_service_process w (some [0x05, 0xAA, 0xBB, 0xCC]) 4 = .error .null_driver := by
  simp [epd_service_process, read_byte, send_data_loop, deref_driver, h, bind, Except.bind,
    EPD_CMD_SEND_DATA, EPD_CMD_SEND_COMMAND, EPD_CMD_SET_PINS, EPD_CMD_INIT, EPD_CMD_CLEAR]

/-- C2, at a world that never saw INIT. -/
theorem send_data_without_driver_derefs_null_witness :
    (sample_world none false 5).epd.driver = none ∧
    epd_service_process (sample_world none false 5) (some [0x05, 0xAA, 0xBB, 0xCC]) 4
      = .error .null_driver :=
  ⟨rfl, send_data_without_driver_derefs_null (sample_world none false 5) rfl⟩

/-- C3 (counterexample): a disconnect handled with the notification flag set leaves
the flag set, while the connection handle becomes `BLE_CONN_HANDLE_INVALID`. -/
theorem disconnect_leaves_flag_set :
    ble_epd_on_ble_evt (sample_world none true 5) (some .BLE_GAP_EVT_DISCONNECTED)
      = .ok (on_disconnect (sample_world none true 5)) ∧
    (on_disconnect (sample_world none true 5)).epd.conn_handle = BLE_CONN_HANDLE_INVALID ∧
    (on_disconnect (sample_world none true 5)).epd.is_notification_enabled = true := by
  decide

/-- C3 (amended): handling a disconnect event sets the connection handle to
`BLE_CONN_HANDLE_INVALID`, calls `DEV_Module_Exit` exactly once and changes nothing
else; in particular the notification flag keeps its prior value. -/
theorem disconnect_resets_handle_only (w : World) :
    ble_epd_on_ble_evt w (some .BLE_GAP_EVT_DISCONNECTED)
      = .ok { epd := { w.epd with conn_handle := BLE_CONN_HANDLE_INVALID },
              pins := w.pins,
              trace := w.trace ++ [.DEV_Module_Exit w.pins] } ∧
    (on_disconnect w).epd.conn_handle = BLE_CONN_HANDLE_INVALID ∧
    (on_disconnect w).epd.is_notification_enabled = w.epd.is_notification_enabled ∧
    (on_disconnect w).trace = w.trace ++ [.DEV_Module_Exit w.pins] :=
  ⟨rfl, rfl, rfl, rfl⟩

/-- C4 (counterexample): from the state left by `ble_epd_init`, a connect, a CCCD write
enabling notifications and a disconnect lead to a state whose notification flag is set
although the connection handle is `BLE_CONN_HANDLE_INVALID`. -/
theorem flag_set_while_disconnected :
    (ble_epd_init sample_sd (some (sample_epd none true 7))).2
      = some (sample_world none false BLE_CONN_HANDLE_INVALID).epd ∧
    (run_events (sample_world none false BLE_CONN_HANDLE_INVALID)
        [.BLE_GAP_EVT_CONNECTED 5, .BLE_GATTS_EVT_WRITE 14 2 [1, 0],
         .BLE_GAP_EVT_DISCONNECTED]).map
      (fun w => (w.epd.is_notification_enabled, w.epd.conn_handle))
      = .ok (true, BLE_CONN_HANDLE_INVALID) := by
  decide

/-- C4 (amended): in every state reached from the state left by `ble_epd_init` through
a sequence of events handled by `ble_epd_on_ble_evt` in which every connect carries a
valid handle, writes arrive only while connected, and every disconnect arrives while the
peer is unsubscribed (no 2-byte CCCD write yet, or the latest one disabled
notifications), the notification flag is set only if the connection handle is present.
Connects and disconnects may repeat any number of times. -/
theorem flag_needs_handle_when_unsubscribed_at_disconnect (sd : SoftDevice)
    (e : ble_epd_t) (w0 w : World) (evs : List ble_evt_t)
    (hinit : (ble_epd_init sd (some e)).2 = some w0.epd)
    (hwf : disconnects_unsubscribed w0.epd.char_handles.cccd_handle false false evs = true)
    (hrun : run_events w0 evs = .ok w) :
    w.epd.is_notification_enabled = true → w.epd.conn_handle ≠ BLE_CONN_HANDLE_INVALID :=
  flag_tracks_subscription w0.epd.char_handles.cccd_handle evs false false w0 w hwf hrun rfl
    (init_state_disconnected sd e w0.epd hinit).2 (fun hf => by cases hf) (fun _ => rfl)

/-- C4 (amended), at a connect, a CCCD write enabling notifications, an INIT write, a
CCCD write disabling them, a disconnect, a second connect and a CCCD write enabling them
again: the flag ends set, with the second connection's handle present. -/
theorem flag_needs_handle_when_unsubscribed_at_disconnect_witness :
    ((run_events (sample_world none false BLE_CONN_HANDLE_INVALID)
        [.BLE_GAP_EVT_CONNECTED 5, .BLE_GATTS_EVT_WRITE 14 2 [1, 0],
         .BLE_GATTS_EVT_WRITE 13 2 [2, 1], .BLE_GATTS_EVT_WRITE 14 2 [0, 0],
         .BLE_GAP_EVT_DISCONNECTED, .BLE_GAP_EVT_CONNECTED 6,
         .BLE_GATTS_EVT_WRITE 14 2 [1, 0]]).map
      (fun w => (w.epd.is_notification_enabled, w.epd.conn_handle)) = .ok (true, 6)) ∧
    ∀ w, run_events (sample_world none false BLE_CONN_HANDLE_INVALID)
        [.BLE_GAP_EVT_CONNECTED 5, .BLE_GATTS_EVT_WRITE 14 2 [1, 0],
         .BLE_GATTS_EVT_WRITE 13 2 [2, 1], .BLE_GATTS_EVT_WRITE 14 2 [0, 0],
         .BLE_GAP_EVT_DISCONNECTED, .BLE_GAP_EVT_CONNECTED 6,
         .BLE_GATTS_EVT_WRITE 14 2 [1, 0]] = .ok w →
      w.epd.is_notification_enabled = true → w.epd.conn_handle ≠ BLE_CONN_HANDLE_INVALID :=
  ⟨by decide, fun w hrun =>
    flag_needs_handle_when_unsubscribed_at_disconnect sample_sd (sample_epd none true 7)
      (sample_world none false BLE_CONN_HANDLE_INVALID) w
      [.BLE_GAP_EVT_CONNECTED 5, .BLE_GATTS_EVT_WRITE 14 2 [1, 0],
       .BLE_GATTS_EVT_WRITE 13 2 [2, 1], .BLE_GATTS_EVT_WRITE 14 2 [0, 0],
       .BLE_GAP_EVT_DISCONNECTED, .BLE_GAP_EVT_CONNECTED 6,
       .BLE_GATTS_EVT_WRITE 14 2 [1, 0]] (by decide) (by decide) hrun⟩

/-- C5: a SET_PINS write of at least 8 bytes stores bytes 1 to 7 of the buffer in the
pin fields MOSI, SCLK, CS, DC, RST, BUSY, BS, then calls `DEV_Module_Exit` once and
`DEV_Module_Init` once, in that order and both with the new pins in place; no driver
function is called and the service structure is unchanged. -/
theorem set_pins_stores_pins_then_cycles_hardware (w : World)
    (b1 b2 b3 b4 b5 b6 b7 : Nat) (rest : List Nat) (length : Nat) (h : 8 ≤ length) :
    epd_service_process w
        (some (EPD_CMD_SET_PINS :: b1 :: b2 :: b3 :: b4 :: b5 :: b6 :: b7 :: rest)) length
      = .ok { epd := w.epd,
              pins := ⟨b1, b2, b3, b4, b5, b6, b7⟩,
              trace := w.trace ++ [.DEV_Module_Exit ⟨b1, b2, b3, b4, b5, b6, b7⟩,
                                   .DEV_Module_Init ⟨b1, b2, b3, b4, b5, b6, b7⟩] } := by
  have h0 : ¬ length ≤ 0 := by omega
  have h8 : ¬ length < 8 := by omega
  simp [epd_service_process, read_byte, World.emit, bind, Except.bind, h0, h8]

/-- C5, at the write `[0x01, 10, 11, 12, 13, 14, 15, 16]`. -/
theorem set_pins_stores_pins_then_cycles_hardware_witness :
    8 ≤ 8 ∧
    epd_service_process (sample_world none false 5)
        (some (EPD_CMD_SET_PINS :: 10 :: 11 :: 12 :: 13 :: 14 :: 15 :: 16 :: [])) 8
      = .ok { epd := (sample_world none false 5).epd,
              pins := ⟨10, 11, 12, 13, 14, 15, 16⟩,
              trace := (sample_world none false 5).trace ++
                [.DEV_Module_Exit ⟨10, 11, 12, 13, 14, 15, 16⟩,
                 .DEV_Module_Init ⟨10, 11, 12, 13, 14, 15, 16⟩] } :=
  ⟨by decide, set_pins_stores_pins_then_cycles_hardware (sample_world none false 5)
    10 11 12 13 14 15 16 [] 8 (by decide)⟩

/-- C6 (counterexample): the write `[0x01, 10, 11, 12, 13, 14, 15, 16]` stores its last
byte 16 in the pin field BS, and the same write with last byte 17 leaves a different pin
configuration. -/
theorem set_pins_last_byte_is_used :
    (epd_service_process (sample_world none false 5)
        (some [0x01, 10, 11, 12, 13, 14, 15, 16]) 8).map (fun w => w.pins)
      = .ok ⟨10, 11, 12, 13, 14, 15, 16⟩ ∧
    (epd_service_process (sample_world none false 5)
        (some [0x01, 10, 11, 12, 13, 14, 15, 17]) 8).map (fun w => w.pins)
      = .ok ⟨10, 11, 12, 13, 14, 15, 17⟩ ∧
    (epd_service_process (sample_world none false 5)
        (some [0x01, 10, 11, 12, 13, 14, 15, 16]) 8).map (fun w => w.pins)
      ≠ (epd_service_process (sample_world none false 5)
        (some [0x01, 10, 11, 12, 13, 14, 15, 17]) 8).map (fun w => w.pins) := by
  decide

/-- C6 (amended): the write `[0x01, 10, 11, 12, 13, 14, 15, 16]` sets the seven pin
fields MOSI, SCLK, CS, DC, RST, BUSY, BS to 10, 11, 12, 13, 14, 15, 16, the last byte
being the BS pin; and two 8-byte SET_PINS writes leave the same pin configuration
exactly when they agree on all seven bytes after the opcode. -/
theorem set_pins_uses_all_seven_bytes (w w2 : World)
    (b1 b2 b3 b4 b5 b6 b7 c1 c2 c3 c4 c5 c6 c7 : Nat) :
    (epd_service_process w (some [0x01, 10, 11, 12, 13, 14, 15, 16]) 8).map (fun x => x.pins)
      = .ok { EPD_MOSI_PIN := 10, EPD_SCLK_PIN := 11, EPD_CS_PIN := 12, EPD_DC_PIN := 13,
              EPD_RST_PIN := 14, EPD_BUSY_PIN := 15, EPD_BS_PIN := 16 } ∧
    ((epd_service_process w (some [EPD_CMD_SET_PINS, b1, b2, b3, b4, b5, b6, b7]) 8).map
        (fun x => x.pins)
      = (epd_service_process w2 (some [EPD_CMD_SET_PINS, c1, c2, c3, c4, c5, c6, c7]) 8).map
        (fun x => x.pins)
      ↔ b1 = c1 ∧ b2 = c2 ∧ b3 = c3 ∧ b4 = c4 ∧ b5 = c5 ∧ b6 = c6 ∧ b7 = c7) := by
  constructor
  · simp [epd_service_process, read_byte, World.emit, bind, Except.bind, Except.map,
      EPD_CMD_SET_PINS]
  · simp [epd_service_process, read_byte, World.emit, bind, Except.bind, Except.map]

/-- C7: the ids of the driver table are pairwise distinct, and an INIT write of at least
2 bytes whose second byte is the id of a table entry makes that entry the selected
driver, whatever was selected before, and then calls that entry's `init` once and
nothing else. -/
theorem init_selects_matching_entry (w : World) (id : Nat) (rest : List Nat) (length : Nat)
    (d : epd_driver_t) (hl : 2 ≤ length) (hd : d ∈ epd_drivers) (hid : d.id = id) :
    (epd_drivers.map (fun row => row.id)).Nodup ∧
    epd_service_process w (some (EPD_CMD_INIT :: id :: rest)) length
      = .ok { epd := { w.epd with driver := some d },
              pins := w.pins,
              trace := w.trace ++ [.call d.init] } := by
  refine ⟨by decide, ?_⟩
  have h0 : ¬ length ≤ 0 := by omega
  have h1 : length > 1 := by omega
  subst hid
  simp only [epd_drivers, List.mem_cons, List.mem_singleton, List.not_mem_nil, or_false] at hd
  rcases hd with rfl | rfl | rfl <;>
    simp [epd_service_process, read_byte, World.emit, bind, Except.bind, h0, h1, pure,
      Except.pure, driver_scan, epd_drivers, deref_driver, EPD_CMD_INIT, EPD_CMD_SET_PINS,
      EPD_DRIVER_4IN2, EPD_DRIVER_4IN2_V2, EPD_DRIVER_4IN2B_V2]

/-- C7, at the write `[0x02, 0x01]` while the first table entry is selected. -/
theorem init_selects_matching_entry_witness :
    (epd_drivers.map (fun row => row.id)).Nodup ∧
    epd_service_process (sample_world epd_drivers.head? false 5)
        (some (EPD_CMD_INIT :: 1 :: [])) 2
      = .ok { epd := { (sample_world epd_drivers.head? false 5).epd with
                       driver := some (epd_drivers.get ⟨1, by decide⟩) },
              pins := (sample_world epd_drivers.head? false 5).pins,
              trace := (sample_world epd_drivers.head? false 5).trace ++
                [.call (epd_drivers.get ⟨1, by decide⟩).init] } :=
  init_selects_matching_entry (sample_world epd_drivers.head? false 5) 1 [] 2
    (epd_drivers.get ⟨1, by decide⟩) (by decide) (by decide) (by decide)

/-- C8: an INIT write that is 1 byte long, or whose second byte is the id of no table
entry, leaves the previously selected driver selected if there was one and selects the
first table entry otherwise; it then calls the `init` of the selected driver once and
nothing else. -/
theorem init_without_match_keeps_or_defaults (w : World) (rest : List Nat) (length : Nat)
    (h : length = 1 ∨
         (2 ≤ length ∧ ∃ id tl, rest = id :: tl ∧ ∀ d ∈ epd_drivers, d.id ≠ id)) :
    epd_service_process w (some (EPD_CMD_INIT :: rest)) length
      = .ok { epd := { w.epd with
                       driver := some (w.epd.driver.getD (epd_drivers.get ⟨0, by decide⟩)) },
              pins := w.pins,
              trace := w.trace ++
                [.call (w.epd.driver.getD (epd_drivers.get ⟨0, by decide⟩)).init] } := by
  obtain ⟨⟨sh, ch, conn, notif, drv⟩, pins, tr⟩ := w
  rcases h with h | ⟨hl, id, tl, rfl, hno⟩
  · subst h
    cases drv <;>
      simp [epd_service_process, read_byte, World.emit, bind, Except.bind, pure,
        Except.pure, epd_drivers, deref_driver, EPD_CMD_INIT, EPD_CMD_SET_PINS]
  · have h0 : ¬ length ≤ 0 := by omega
    have h1 : length > 1 := by omega
    have hscan : driver_scan epd_drivers id drv = drv := by
      have := hno
      simp only [epd_drivers, List.mem_cons, List.mem_singleton, List.not_mem_nil, or_false,
        forall_eq_or_imp, forall_eq] at this
      simp [driver_scan, epd_drivers, this.1, this.2.1, this.2.2]
    cases drv
    all_goals
      simp [epd_service_process, read_byte, World.emit, bind, Except.bind, pure,
        Except.pure, hscan, h0, h1, deref_driver, EPD_CMD_INIT, EPD_CMD_SET_PINS]
    all_goals simp [epd_drivers]

/-- C8, at the write `[0x02, 0x09]` with no driver selected. -/
theorem init_without_match_keeps_or_defaults_witness :
    epd_service_process (sample_world none false 5) (some (EPD_CMD_INIT :: [9])) 2
      = .ok { epd := { (sample_world none false 5).epd with
                       driver := some ((sample_world none false 5).epd.driver.getD
                         (epd_drivers.get ⟨0, by decide⟩)) },
              pins := (sample_world none false 5).pins,
              trace := (sample_world none false 5).trace ++
                [.call ((sample_world none false 5).epd.driver.getD
                  (epd_drivers.get ⟨0, by decide⟩)).init] } :=
  init_without_match_keeps_or_defaults (sample_world none false 5) [9] 2
    (Or.inr ⟨by decide, 9, [], rfl, by decide⟩)

/-- C9: with a driver `d` selected, a SEND_DATA write of `k + 1` bytes (a length that
fits the 16-bit `length` parameter) calls `d.send_data` exactly `k` times, on bytes 1 to
`k` of the buffer in that order, calls nothing else and leaves the service structure and
the pins unchanged; an empty payload gives no call at all. -/
theorem send_data_forwards_payload_in_order (w : World) (d : epd_driver_t)
    (payload : List Nat) (hd : w.epd.driver = some d) (hlen : payload.length + 1 < 65536) :
    epd_service_process w (some (EPD_CMD_SEND_DATA :: payload)) (payload.length + 1)
      = .ok { epd := w.epd, pins := w.pins,
              trace := w.trace ++ payload.map (.call_byte d.send_data) } ∧
    epd_service_process w (some [EPD_CMD_SEND_DATA]) 1 = .ok w := by
  have hloop := send_data_loop_sends_payload d EPD_CMD_SEND_DATA payload hlen
    (payload.length + 1) 0 w hd (Nat.zero_le _) (by omega)
  constructor
  · simp only [epd_service_process, read_byte, bind, Except.bind]
    simp [EPD_CMD_SEND_DATA, EPD_CMD_SEND_COMMAND, EPD_CMD_SET_PINS, EPD_CMD_INIT,
      EPD_CMD_CLEAR] at hloop ⊢
    exact hloop
  · simp [epd_service_process, read_byte, bind, Except.bind, send_data_loop,
      EPD_CMD_SEND_DATA, EPD_CMD_SEND_COMMAND, EPD_CMD_SET_PINS, EPD_CMD_INIT, EPD_CMD_CLEAR]

/-- C9, at the write `[0x05, 0xAA, 0xBB, 0xCC]` with the third table entry selected. -/
theorem send_data_forwards_payload_in_order_witness :
    epd_service_process (sample_world (some (epd_drivers.get ⟨2, by decide⟩)) false 5)
        (some (EPD_CMD_SEND_DATA :: [0xAA, 0xBB, 0xCC])) ([0xAA, 0xBB, 0xCC].length + 1)
      = .ok { epd := (sample_world (some (epd_drivers.get ⟨2, by decide⟩)) false 5).epd,
              pins := (sample_world (some (epd_drivers.get ⟨2, by decide⟩)) false 5).pins,
              trace := (sample_world (some (epd_drivers.get ⟨2, by decide⟩)) false 5).trace ++
                [0xAA, 0xBB, 0xCC].map
                  (.call_byte (epd_drivers.get ⟨2, by decide⟩).send_data) } ∧
    epd_service_process (sample_world (some (epd_drivers.get ⟨2, by decide⟩)) false 5)
        (some [EPD_CMD_SEND_DATA]) 1
      = .ok (sample_world (some (epd_drivers.get ⟨2, by decide⟩)) false 5) :=
  send_data_forwards_payload_in_order
    (sample_world (some (epd_drivers.get ⟨2, by decide⟩)) false 5)
    (epd_drivers.get ⟨2, by decide⟩) [0xAA, 0xBB, 0xCC] rfl (by decide)

/-- C10: with a driver `d` selected, a DISPLAY write calls `d.display` and then
`DEV_Delay_ms(500)`, a SLEEP write calls `d.sleep` and then `DEV_Delay_ms(200)`, each
calling nothing else and leaving the service structure and the pins unchanged; and the
writes `[0x02, 0x02]`, `[0x06]`, `[0x07]`, processed in this order from any state, select
the third table entry (id 2) and call its `init`, its `display`, the 500 ms delay, its
`sleep` and the 200 ms delay, in that order. -/
theorem display_and_sleep_call_then_delay (w : World) :
    (∀ (d : epd_driver_t) (rest : List Nat) (length : Nat),
      w.epd.driver = some d → 1 ≤ length →
      epd_service_process w (some (EPD_CMD_DISPLAY :: rest)) length
        = .ok { epd := w.epd, pins := w.pins,
                trace := w.trace ++ [.call d.display, .DEV_Delay_ms 500] } ∧
      epd_service_process w (some (EPD_CMD_SLEEP :: rest)) length
        = .ok { epd := w.epd, pins := w.pins,
                trace := w.trace ++ [.call d.sleep, .DEV_Delay_ms 200] }) ∧
    process_writes w [[0x02, 0x02], [0x06], [0x07]]
      = .ok { epd := { w.epd with driver := some (epd_drivers.get ⟨2, by decide⟩) },
              pins := w.pins,
              trace := w.trace ++
                [.call .EPD_4IN2B_V2_Init,
                 .call .EPD_4IN2B_V2_UpdateDisplay, .DEV_Delay_ms 500,
                 .call .EPD_4IN2B_V2_Sleep, .DEV_Delay_ms 200] } ∧
    (epd_drivers.get ⟨2, by decide⟩).id = 2 := by
  refine ⟨fun d rest length hd hl => ?_, ?_, rfl⟩
  · have h0 : ¬ length ≤ 0 := by omega
    constructor
    · simp [epd_service_process, read_byte, World.emit, bind, Except.bind, h0,
        deref_driver, hd, EPD_CMD_DISPLAY, EPD_CMD_SEND_DATA, EPD_CMD_SEND_COMMAND,
        EPD_CMD_SET_PINS, EPD_CMD_INIT, EPD_CMD_CLEAR]
    · simp [epd_service_process, read_byte, World.emit, bind, Except.bind, h0,
        deref_driver, hd, EPD_CMD_SLEEP, EPD_CMD_DISPLAY, EPD_CMD_SEND_DATA,
        EPD_CMD_SEND_COMMAND, EPD_CMD_SET_PINS, EPD_CMD_INIT, EPD_CMD_CLEAR]
  · simp [process_writes, epd_service_process, read_byte, World.emit, bind, Except.bind,
      pure, Except.pure, deref_driver, driver_scan, epd_drivers, EPD_CMD_SLEEP,
      EPD_CMD_DISPLAY, EPD_CMD_SEND_DATA, EPD_CMD_SEND_COMMAND, EPD_CMD_SET_PINS,
      EPD_CMD_INIT, EPD_CMD_CLEAR, EPD_DRIVER_4IN2, EPD_DRIVER_4IN2_V2, EPD_DRIVER_4IN2B_V2]

/-- C10, at a state with the first table entry selected for the single writes `[0x06]`
and `[0x07]`, and at a fresh state for the scenario. -/
theorem display_and_sleep_call_then_delay_witness :
    (epd_service_process (sample_world epd_drivers.head? false 5)
        (some (EPD_CMD_DISPLAY :: [])) 1
      = .ok { epd := (sample_world epd_drivers.head? false 5).epd,
              pins := (sample_world epd_drivers.head? false 5).pins,
              trace := (sample_world epd_drivers.head? false 5).trace ++
                [.call (epd_drivers.get ⟨0, by decide⟩).display, .DEV_Delay_ms 500] } ∧
     epd_service_process (sample_world epd_drivers.head? false 5)
        (some (EPD_CMD_SLEEP :: [])) 1
      = .ok { epd := (sample_world epd_drivers.head? false 5).epd,
              pins := (sample_world epd_drivers.head? false 5).pins,
              trace := (sample_world epd_drivers.head? false 5).trace ++
                [.call (epd_drivers.get ⟨0, by decide⟩).sleep, .DEV_Delay_ms 200] }) ∧
    process_writes (sample_world none false 5) [[0x02, 0x02], [0x06], [0x07]]
      = .ok { epd := { (sample_world none false 5).epd with
                       driver := some (epd_drivers.get ⟨2, by decide⟩) },
              pins := (sample_world none false 5).pins,
              trace := (sample_world none false 5).trace ++
                [.call .EPD_4IN2B_V2_Init,
                 .call .EPD_4IN2B_V2_UpdateDisplay, .DEV_Delay_ms 500,
                 .call .EPD_4IN2B_V2_Sleep, .DEV_Delay_ms 200] } :=
  ⟨(display_and_sleep_call_then_delay (sample_world epd_drivers.head? false 5)).1
      (epd_drivers.get ⟨0, by decide⟩) [] 1 rfl (by decide),
   (display_and_sleep_call_then_delay (sample_world none false 5)).2.1⟩

/-- C11: on a non-null service whose connection handle is `BLE_CONN_HANDLE_INVALID` or
whose notification flag is off, `ble_epd_string_send` returns `NRF_ERROR_INVALID_STATE`
and makes no call of `sd_ble_gatts_hvx`, for every buffer, every length and every
maximum length. -/
theorem string_send_rejected_when_not_subscribed (maxlen : Nat)
    (hvx : Nat → ble_gatts_hvx_params_t → Nat) (e : ble_epd_t)
    (p_string : Option (List Nat)) (length : Nat)
    (h : e.conn_handle = BLE_CONN_HANDLE_INVALID ∨ e.is_notification_enabled = false) :
    ble_epd_string_send maxlen hvx (some e) p_string length
      = (NRF_ERROR_INVALID_STATE, []) := by
  simp [ble_epd_string_send, h]

/-- C11, at a disconnected service with the flag still set and a length above the
maximum. -/
theorem string_send_rejected_when_not_subscribed_witness :
    ble_epd_string_send 20 (fun _ _ => 0) (some (sample_epd none true BLE_CONN_HANDLE_INVALID))
        (some [1, 2, 3]) 300
      = (NRF_ERROR_INVALID_STATE, []) :=
  string_send_rejected_when_not_subscribed 20 (fun _ _ => 0)
    (sample_epd none true BLE_CONN_HANDLE_INVALID) (some [1, 2, 3]) 300 (Or.inl rfl)

/-- C12: on a connected service with notifications enabled, `ble_epd_string_send`
returns `NRF_ERROR_INVALID_PARAM` without a call of `sd_ble_gatts_hvx` exactly when the
length exceeds `BLE_EPD_MAX_DATA_LEN`; for every length up to and including the maximum
it makes exactly one call, on the connection handle, with the value handle, the
notification type, the given buffer and the given length, and returns what that call
returns. -/
theorem string_send_checks_length_then_notifies (maxlen : Nat)
    (hvx : Nat → ble_gatts_hvx_params_t → Nat) (e : ble_epd_t)
    (p_string : Option (List Nat)) (length : Nat)
    (hc : e.conn_handle ≠ BLE_CONN_HANDLE_INVALID) (hn : e.is_notification_enabled = true) :
    (ble_epd_string_send maxlen hvx (some e) p_string length = (NRF_ERROR_INVALID_PARAM, [])
      ↔ length > maxlen) ∧
    (length ≤ maxlen →
      ble_epd_string_send maxlen hvx (some e) p_string length
        = (hvx e.conn_handle
             ⟨e.char_handles.value_handle, BLE_GATT_HVX_NOTIFICATION, 0, length, p_string⟩,
           [(e.conn_handle,
             ⟨e.char_handles.value_handle, BLE_GATT_HVX_NOTIFICATION, 0, length,
              p_string⟩)])) := by
  constructor
  · by_cases hl : length > maxlen
    · simp [ble_epd_string_send, hc, hn, hl]
    · simp [ble_epd_string_send, hc, hn, hl]
  · intro hl
    have hl2 : ¬ length > maxlen := by omega
    simp [ble_epd_string_send, hc, hn, hl2]

/-- C12, at a length equal to the maximum and a SoftDevice call that fails with code
`0x3401`. -/
theorem string_send_checks_length_then_notifies_witness :
    (ble_epd_string_send 20 (fun _ _ => 0x3401) (some (sample_epd none true 5))
        (some [1, 2, 3]) 20 = (NRF_ERROR_INVALID_PARAM, []) ↔ 20 > 20) ∧
    (20 ≤ 20 →
      ble_epd_string_send 20 (fun _ _ => 0x3401) (some (sample_epd none true 5))
          (some [1, 2, 3]) 20
        = ((fun _ _ => 0x3401) (sample_epd none true 5).conn_handle
             (⟨(sample_epd none true 5).char_handles.value_handle,
               BLE_GATT_HVX_NOTIFICATION, 0, 20, some [1, 2, 3]⟩ : ble_gatts_hvx_params_t),
           [((sample_epd none true 5).conn_handle,
             ⟨(sample_epd none true 5).char_handles.value_handle,
              BLE_GATT_HVX_NOTIFICATION, 0, 20, some [1, 2, 3]⟩)])) :=
  string_send_checks_length_then_notifies 20 (fun _ _ => 0x3401) (sample_epd none true 5)
    (some [1, 2, 3]) 20 (by decide) rfl

/-- C13: a write of exactly 2 bytes to the CCCD handle sets the notification flag to the
value decoded from the payload (bit 0 of the little-endian 16-bit value, that is bit 0
of the first byte), changes no other field of the service structure, leaves the pins
alone and makes no driver, hardware or delay call, also when the first byte is a command
opcode. -/
theorem cccd_write_sets_flag_only (w : World) (b0 b1 : Nat) :
    ble_srv_is_notification_enabled [b0, b1] = .ok (decide (b0 % 2 = 1)) ∧
    on_write w w.epd.char_handles.cccd_handle 2 [b0, b1]
      = .ok { epd := { w.epd with is_notification_enabled := decide (b0 % 2 = 1) },
              pins := w.pins, trace := w.trace } ∧
    ble_epd_on_ble_evt w (some (.BLE_GATTS_EVT_WRITE w.epd.char_handles.cccd_handle 2 [b0, b1]))
      = .ok { epd := { w.epd with is_notification_enabled := decide (b0 % 2 = 1) },
              pins := w.pins, trace := w.trace } ∧
    on_write (sample_world epd_drivers.head? false 5) 14 2 [EPD_CMD_DISPLAY, 0]
      = .ok (sample_world epd_drivers.head? false 5) ∧
    on_write (sample_world epd_drivers.head? false 5) 14 2 [EPD_CMD_SET_PINS, 0]
      = .ok (sample_world epd_drivers.head? true 5) := by
  have hb := cccd_enable_bit b0 b1
  simp only [Nat.reduceLeDiff, ne_eq] at hb
  refine ⟨?_, cccd_write_result w 2 b0 b1 [] rfl, cccd_write_result w 2 b0 b1 [] rfl,
    by decide, by decide⟩
  simp only [ble_srv_is_notification_enabled, read_byte, bind, Except.bind]
  simp [hb]

/-- C14: a write to the CCCD handle (an attribute other than the value attribute) whose
length is not 2, and a write to a handle that is neither the CCCD handle nor the value
handle, leave the service structure, the pins and the trace of calls unchanged. -/
theorem other_writes_are_ignored (w : World) (handle len : Nat) (data : List Nat)
    (h : (handle = w.epd.char_handles.cccd_handle ∧
            w.epd.char_handles.cccd_handle ≠ w.epd.char_handles.value_handle ∧ len ≠ 2) ∨
         (handle ≠ w.epd.char_handles.cccd_handle ∧
            handle ≠ w.epd.char_handles.value_handle)) :
    on_write w handle len data = .ok w ∧
    ble_epd_on_ble_evt w (some (.BLE_GATTS_EVT_WRITE handle len data)) = .ok w := by
  have hw : on_write w handle len data = .ok w := by
    rcases h with ⟨h1, h2, h3⟩ | ⟨h1, h2⟩
    · subst h1
      simp [on_write, h2, h3]
    · simp [on_write, h1, h2]
  exact ⟨hw, hw⟩

/-- C14, at a 3-byte write to the CCCD handle whose first byte is the DISPLAY opcode. -/
theorem other_writes_are_ignored_witness :
    on_write (sample_world epd_drivers.head? false 5) 14 3 [6, 0, 0]
      = .ok (sample_world epd_drivers.head? false 5) ∧
    ble_epd_on_ble_evt (sample_world epd_drivers.head? false 5)
        (some (.BLE_GATTS_EVT_WRITE 14 3 [6, 0, 0]))
      = .ok (sample_world epd_drivers.head? false 5) :=
  other_writes_are_ignored (sample_world epd_drivers.head? false 5) 14 3 [6, 0, 0]
    (Or.inl ⟨rfl, by decide, by decide⟩)

/-- C15: `epd_service_process` called with a null buffer, with length 0, or with a
buffer whose first byte is none of the seven opcodes returns the world as it was: no
field of the service structure, no pin and no call is added, whether or not a driver is
selected. -/
theorem empty_or_unknown_command_is_noop (w : World) :
    (∀ length : Nat, epd_service_process w none length = .ok w) ∧
    (∀ buf : List Nat, epd_service_process w (some buf) 0 = .ok w) ∧
    (∀ (buf : List Nat) (op length : Nat), buf[0]? = some op →
      op ≠ EPD_CMD_SET_PINS → op ≠ EPD_CMD_INIT → op ≠ EPD_CMD_CLEAR →
      op ≠ EPD_CMD_SEND_COMMAND → op ≠ EPD_CMD_SEND_DATA → op ≠ EPD_CMD_DISPLAY →
      op ≠ EPD_CMD_SLEEP →
      epd_service_process w (some buf) length = .ok w) := by
  refine ⟨fun _ => rfl, fun buf => by simp [epd_service_process], ?_⟩
  intro buf op length h0 h1 h2 h3 h4 h5 h6 h7
  by_cases hz : length ≤ 0
  · simp [epd_service_process, hz]
  · simp [epd_service_process, hz, read_byte, h0, bind, Except.bind, h1, h2, h3, h4, h5,
      h6, h7]

/-- C15, at the write `[0x08, 0x01]` with no driver selected and at the write `[0x00]`
with a driver selected. -/
theorem empty_or_unknown_command_is_noop_witness :
    epd_service_process (sample_world none false 5) (some [0x08, 0x01]) 2
      = .ok (sample_world none false 5) ∧
    epd_service_process (sample_world epd_drivers.head? false 5) (some [0x00]) 1
      = .ok (sample_world epd_drivers.head? false 5) :=
  ⟨(empty_or_unknown_command_is_noop (sample_world none false 5)).2.2 [0x08, 0x01] 0x08 2
      rfl (by decide) (by decide) (by decide) (by decide) (by decide) (by decide)
      (by decide),
   (empty_or_unknown_command_is_noop (sample_world epd_drivers.head? false 5)).2.2
      [0x00] 0x00 1 rfl (by decide) (by decide) (by decide) (by decide) (by decide)
      (by decide) (by decide)⟩

/-- C16: after any sequence of connect, disconnect, write and other events that
`ble_epd_on_ble_evt` handles without running into undefined behaviour, a service that
started with no driver selected has either still no driver selected or a row of
`epd_drivers` selected; and a service that started with a driver selected still has one
selected. -/
theorem selected_driver_stays_in_table (w0 w : World) (evs : List ble_evt_t)
    (hrun : run_events w0 evs = .ok w) :
    (w0.epd.driver = none →
      w.epd.driver = none ∨ ∃ d ∈ epd_drivers, w.epd.driver = some d) ∧
    (w0.epd.driver ≠ none → w.epd.driver ≠ none) := by
  rcases run_driver evs w0 w hrun with h | ⟨d, hd, h⟩
  · exact ⟨fun h0 => Or.inl (h.trans h0), fun h0 => by rw [h]; exact h0⟩
  · exact ⟨fun _ => Or.inr ⟨d, hd, h⟩, fun _ => by rw [h]; exact Option.some_ne_none d⟩

/-- C16, at a connect, an INIT write with id 1, a SLEEP write, an INIT write with an
unknown id and a disconnect, from a state with no driver selected. -/
theorem selected_driver_stays_in_table_witness :
    (run_events (sample_world none false BLE_CONN_HANDLE_INVALID)
        [.BLE_GAP_EVT_CONNECTED 5, .BLE_GATTS_EVT_WRITE 13 2 [2, 1],
         .BLE_GATTS_EVT_WRITE 13 1 [7], .BLE_GATTS_EVT_WRITE 13 2 [2, 9],
         .BLE_GAP_EVT_DISCONNECTED]).map (fun w => w.epd.driver)
      = .ok (some (epd_drivers.get ⟨1, by decide⟩)) ∧
    ∀ w, run_events (sample_world none false BLE_CONN_HANDLE_INVALID)
        [.BLE_GAP_EVT_CONNECTED 5, .BLE_GATTS_EVT_WRITE 13 2 [2, 1],
         .BLE_GATTS_EVT_WRITE 13 1 [7], .BLE_GATTS_EVT_WRITE 13 2 [2, 9],
         .BLE_GAP_EVT_DISCONNECTED] = .ok w →
      (w.epd.driver = none ∨ ∃ d ∈ epd_drivers, w.epd.driver = some d) :=
  ⟨by decide, fun w hrun =>
    (selected_driver_stays_in_table (sample_world none false BLE_CONN_HANDLE_INVALID) w
      [.BLE_GAP_EVT_CONNECTED 5, .BLE_GATTS_EVT_WRITE 13 2 [2, 1],
       .BLE_GATTS_EVT_WRITE 13 1 [7], .BLE_GATTS_EVT_WRITE 13 2 [2, 9],
       .BLE_GAP_EVT_DISCONNECTED] hrun).1 rfl⟩

/-- C17: a command whose opcode is not SET_PINS leaves all seven pins as they were, and
so do connect events, disconnect events and 2-byte writes to the CCCD handle; a command
whose opcode is not INIT leaves the selected driver as it was, and so do those events;
and no command changes the connection handle or the notification flag. -/
theorem pins_and_driver_frame (w : World) :
    (∀ (buf : List Nat) (length : Nat) (w1 : World), buf[0]? ≠ some EPD_CMD_SET_PINS →
      epd_service_process w (some buf) length = .ok w1 → w1.pins = w.pins) ∧
    (∀ (buf : List Nat) (length : Nat) (w1 : World), buf[0]? ≠ some EPD_CMD_INIT →
      epd_service_process w (some buf) length = .ok w1 →
      w1.epd.driver = w.epd.driver) ∧
    (∀ (p_data : Option (List Nat)) (length : Nat) (w1 : World),
      epd_service_process w p_data length = .ok w1 →
      w1.epd.conn_handle = w.epd.conn_handle ∧
      w1.epd.is_notification_enabled = w.epd.is_notification_enabled) ∧
    (∀ conn_handle : Nat,
      ble_epd_on_ble_evt w (some (.BLE_GAP_EVT_CONNECTED conn_handle))
        = .ok (on_connect w conn_handle) ∧
      (on_connect w conn_handle).pins = w.pins ∧
      (on_connect w conn_handle).epd.driver = w.epd.driver) ∧
    (ble_epd_on_ble_evt w (some .BLE_GAP_EVT_DISCONNECTED) = .ok (on_disconnect w) ∧
      (on_disconnect w).pins = w.pins ∧ (on_disconnect w).epd.driver = w.epd.driver) ∧
    (∀ (data : List Nat) (w1 : World),
      ble_epd_on_ble_evt w
          (some (.BLE_GATTS_EVT_WRITE w.epd.char_handles.cccd_handle 2 data)) = .ok w1 →
      w1.pins = w.pins ∧ w1.epd.driver = w.epd.driver) := by
  refine ⟨fun buf length w1 hop h => process_keeps_pins w w1 buf length hop h,
    fun buf length w1 hop h => process_keeps_driver w w1 buf length hop h,
    fun p_data length w1 h => process_keeps_connection w w1 p_data length h,
    fun _ => ⟨rfl, rfl, rfl⟩, ⟨rfl, rfl, rfl⟩, ?_⟩
  intro data w1 h
  simp only [ble_epd_on_ble_evt, on_write, and_self, if_true] at h
  rw [bind_eq_ok_iff] at h
  obtain ⟨en, -, h⟩ := h
  split_ifs at h <;> (injection h with h; subst h; exact ⟨rfl, rfl⟩)

/-- C17, at a SEND_DATA write (pins kept), a DISPLAY write (driver kept), an INIT write
(connection handle and flag kept) and a CCCD write. -/
theorem pins_and_driver_frame_witness :
    (∀ w1, epd_service_process (sample_world epd_drivers.head? true 5)
        (some [5, 0xAA]) 2 = .ok w1 → w1.pins = (sample_world epd_drivers.head? true 5).pins) ∧
    (∀ w1, epd_service_process (sample_world epd_drivers.head? true 5)
        (some [6]) 1 = .ok w1 →
      w1.epd.driver = (sample_world epd_drivers.head? true 5).epd.driver) ∧
    (∀ w1, epd_service_process (sample_world epd_drivers.head? true 5)
        (some [2, 2]) 2 = .ok w1 →
      w1.epd.conn_handle = (sample_world epd_drivers.head? true 5).epd.conn_handle ∧
      w1.epd.is_notification_enabled
        = (sample_world epd_drivers.head? true 5).epd.is_notification_enabled) ∧
    (∀ w1, ble_epd_on_ble_evt (sample_world epd_drivers.head? true 5)
        (some (.BLE_GATTS_EVT_WRITE
          (sample_world epd_drivers.head? true 5).epd.char_handles.cccd_handle 2 [0, 0]))
        = .ok w1 →
      w1.pins = (sample_world epd_drivers.head? true 5).pins ∧
      w1.epd.driver = (sample_world epd_drivers.head? true 5).epd.driver) ∧
    (epd_service_process (sample_world epd_drivers.head? true 5) (some [5, 0xAA]) 2).map
        (fun w => w.pins) = .ok (sample_world epd_drivers.head? true 5).pins :=
  ⟨fun w1 h => (pins_and_driver_frame (sample_world epd_drivers.head? true 5)).1
      [5, 0xAA] 2 w1 (by decide) h,
   fun w1 h => (pins_and_driver_frame (sample_world epd_drivers.head? true 5)).2.1
      [6] 1 w1 (by decide) h,
   fun w1 h => (pins_and_driver_frame (sample_world epd_drivers.head? true 5)).2.2.1
      (some [2, 2]) 2 w1 h,
   fun w1 h => (pins_and_driver_frame (sample_world epd_drivers.head? true 5)).2.2.2.2.2
      [0, 0] w1 h,
   by decide⟩

/-- C18: for every table of driver rows (ids may collide), every previous selection and
every id byte, the scan of INIT leaves the last row whose id equals the byte selected if
some row matches, and the previous selection otherwise (the fallback to the first row
comes after the scan); the scan with its 8-bit counter returns the same, with fuel to
spare, for every table the counter can index (at most 255 rows). -/
theorem driver_scan_is_last_match_wins (reg : List epd_driver_t) (id : Nat)
    (prev : Option epd_driver_t) :
    driver_scan reg id prev = last_match_wins reg id prev ∧
    ((∀ row ∈ reg, row.id ≠ id) → driver_scan reg id prev = prev) ∧
    (∀ (front back : List epd_driver_t) (row : epd_driver_t),
      reg = front ++ row :: back → row.id = id → (∀ r ∈ back, r.id ≠ id) →
      driver_scan reg id prev = some row) ∧
    (reg.length ≤ 255 →
      driver_scan_loop reg id (reg.length + 1) 0 prev = .ok (last_match_wins reg id prev)) := by
  have hmain := driver_scan_eq_last_match id
  refine ⟨hmain reg prev, ?_, ?_, ?_⟩
  · intro hno
    rw [hmain]
    unfold last_match_wins
    have : reg.filter (fun row => decide (row.id = id)) = [] := by
      rw [List.filter_eq_nil_iff]
      intro row hrow
      simpa using hno row hrow
    rw [this]; rfl
  · intro front back row hreg hid hback
    subst hreg
    have hb : back.filter (fun r => decide (r.id = id)) = [] := by
      rw [List.filter_eq_nil_iff]
      intro r hr
      simpa using hback r hr
    rw [hmain]
    unfold last_match_wins
    rw [List.filter_append, List.filter_cons_of_pos (by simpa using hid), hb,
      List.getLast?_append_cons]
    rfl
  · intro hlen
    have := driver_scan_loop_eq reg id hlen (reg.length + 1) 0 prev (Nat.zero_le _)
      (by omega)
    rw [this, List.drop_zero, hmain]

/-- C18, at a table with two rows of id 1: the later one is selected. -/
theorem driver_scan_is_last_match_wins_witness :
    driver_scan [⟨1, .EPD_4IN2_Init, .EPD_4IN2_Clear, .EPD_4IN2_SendCommand,
        .EPD_4IN2_SendData, .EPD_4IN2_UpdateDisplay, .EPD_4IN2_Sleep⟩,
      ⟨1, .EPD_4IN2_V2_Init, .EPD_4IN2_V2_Clear, .EPD_4IN2_V2_SendCommand,
        .EPD_4IN2_V2_SendData, .EPD_4IN2_V2_UpdateDisplay, .EPD_4IN2_V2_Sleep⟩,
      ⟨2, .EPD_4IN2B_V2_Init, .EPD_4IN2B_V2_Clear, .EPD_4IN2B_V2_SendCommand,
        .EPD_4IN2B_V2_SendData, .EPD_4IN2B_V2_UpdateDisplay, .EPD_4IN2B_V2_Sleep⟩] 1 none
      = some ⟨1, .EPD_4IN2_V2_Init, .EPD_4IN2_V2_Clear, .EPD_4IN2_V2_SendCommand,
        .EPD_4IN2_V2_SendData, .EPD_4IN2_V2_UpdateDisplay, .EPD_4IN2_V2_Sleep⟩ :=
  (driver_scan_is_last_match_wins _ 1 none).2.2.1
    [⟨1, .EPD_4IN2_Init, .EPD_4IN2_Clear, .EPD_4IN2_SendCommand,
        .EPD_4IN2_SendData, .EPD_4IN2_UpdateDisplay, .EPD_4IN2_Sleep⟩]
    [⟨2, .EPD_4IN2B_V2_Init, .EPD_4IN2B_V2_Clear, .EPD_4IN2B_V2_SendCommand,
        .EPD_4IN2B_V2_SendData, .EPD_4IN2B_V2_UpdateDisplay, .EPD_4IN2B_V2_Sleep⟩]
    _ rfl rfl (by decide)

/-- C19: for a SEND_DATA buffer whose length `L` lies between 1 and 65535 and is the
length handed to `epd_service_process`, every iteration of the send loop, at counter
`i < L - 1`, reads index `i + 1` with `1 ≤ i + 1 ≤ L - 1` (inside the buffer, never the
opcode byte) and goes on at counter `i + 1` without wrapping; the loop stops at counter
`L - 1`; with a driver selected it returns after exactly `L - 1` calls of `send_data`, on
bytes 1 to `L - 1` in order; and whatever is selected it neither exhausts its fuel nor
reads outside the buffer. -/
theorem send_data_loop_stays_in_buffer (buf : List Nat) (L : Nat)
    (h1 : 1 ≤ L) (h2 : L ≤ 65535) (hsz : buf.length = L) :
    (∀ i, i < L - 1 →
      1 ≤ i + 1 ∧ i + 1 ≤ L - 1 ∧ (i + 1) % 65536 = i + 1 ∧
      ∃ b, read_byte buf (i + 1) = .ok b ∧
        ∀ (fuel : Nat) (w : World) (d : epd_driver_t), w.epd.driver = some d →
          send_data_loop buf L (fuel + 1) i w
            = send_data_loop buf L fuel (i + 1) (w.emit (.call_byte d.send_data b))) ∧
    (∀ (fuel : Nat) (w : World), send_data_loop buf L (fuel + 1) (L - 1) w = .ok w) ∧
    (∀ (w : World) (d : epd_driver_t), w.epd.driver = some d →
      send_data_loop buf L L 0 w
        = .ok { epd := w.epd, pins := w.pins,
                trace := w.trace ++ (buf.drop 1).map (.call_byte d.send_data) }) ∧
    (buf.drop 1).length = L - 1 ∧
    (∀ w : World, send_data_loop buf L L 0 w ≠ .error .out_of_fuel ∧
      send_data_loop buf L L 0 w ≠ .error .out_of_bounds) := by
  obtain ⟨op, payload, rfl⟩ : ∃ op payload, buf = op :: payload := by
    cases buf with
    | nil => simp at hsz; omega
    | cons op payload => exact ⟨op, payload, rfl⟩
  have hp : payload.length + 1 = L := by simpa using hsz
  subst hp
  have hsome : ∀ (w : World) (d : epd_driver_t), w.epd.driver = some d →
      send_data_loop (op :: payload) (payload.length + 1) (payload.length + 1) 0 w
        = .ok { epd := w.epd, pins := w.pins,
                trace := w.trace ++ payload.map (.call_byte d.send_data) } := by
    intro w d hd
    have := send_data_loop_sends_payload d op payload (by omega) (payload.length + 1) 0 w hd
      (Nat.zero_le _) (by omega)
    simpa using this
  refine ⟨?_, ?_, ?_, by simp, ?_⟩
  · intro i hi
    have hlt : i < payload.length := by omega
    refine ⟨by omega, by omega, Nat.mod_eq_of_lt (by omega), payload[i], ?_, ?_⟩
    · simp [read_byte, List.getElem?_eq_getElem hlt]
    · intro fuel w d hd
      have hc : (i : Int) < ((payload.length + 1 : Nat) : Int) - 1 := by omega
      have hrd : read_byte (op :: payload) (i + 1) = .ok payload[i] := by
        simp [read_byte, List.getElem?_eq_getElem hlt]
      have hdd : deref_driver w = .ok d := by simp [deref_driver, hd]
      have hmod : (i + 1) % 65536 = i + 1 := Nat.mod_eq_of_lt (by omega)
      rw [send_data_loop, if_pos hc, hdd, hrd, hmod]
      rfl
  · intro fuel w
    have hc : ¬ (((payload.length + 1 - 1 : Nat) : Int)
        < ((payload.length + 1 : Nat) : Int) - 1) := by omega
    rw [send_data_loop, if_neg hc]
  · intro w d hd
    simpa using hsome w d hd
  · intro w
    cases hdrv : w.epd.driver with
    | some d => rw [hsome w d hdrv]; exact ⟨by simp, by simp⟩
    | none =>
      rw [send_data_loop]
      by_cases hc : ((0 : Nat) : Int) < ((payload.length + 1 : Nat) : Int) - 1
      · have hdd : deref_driver w = .error .null_driver := by simp [deref_driver, hdrv]
        rw [if_pos hc, hdd]
        exact ⟨by simp [bind, Except.bind], by simp [bind, Except.bind]⟩
      · rw [if_neg hc]; exact ⟨by simp, by simp⟩

/-- C19, at the buffer `[0x05, 0xAA, 0xBB, 0xCC]` with the first table row selected. -/
theorem send_data_loop_stays_in_buffer_witness :
    send_data_loop [0x05, 0xAA, 0xBB, 0xCC] 4 4 0 (sample_world epd_drivers.head? false 5)
      = .ok { epd := (sample_world epd_drivers.head? false 5).epd,
              pins := (sample_world epd_drivers.head? false 5).pins,
              trace := (sample_world epd_drivers.head? false 5).trace ++
                ([0x05, 0xAA, 0xBB, 0xCC].drop 1).map
                  (.call_byte (epd_drivers.get ⟨0, by decide⟩).send_data) } ∧
    ([0x05, 0xAA, 0xBB, 0xCC].drop 1).length = 4 - 1 :=
  ⟨(send_data_loop_stays_in_buffer [0x05, 0xAA, 0xBB, 0xCC] 4 (by decide) (by decide)
      rfl).2.2.1 (sample_world epd_drivers.head? false 5)
      (epd_drivers.get ⟨0, by decide⟩) rfl,
   (send_data_loop_stays_in_buffer [0x05, 0xAA, 0xBB, 0xCC] 4 (by decide) (by decide)
      rfl).2.2.2.1⟩

/-- C20: with the hardware layer seen as one boolean (acquired by `DEV_Module_Init`,
released by `DEV_Module_Exit`), take any event sequence that starts disconnected and
released, in which connects (with a valid handle) and disconnects alternate and writes
arrive only while connected, and that is handled without undefined behaviour: after
each event of it the hardware layer is acquired exactly when the connection handle is
present. A write adds either no hardware call at all or the pair `DEV_Module_Exit`,
`DEV_Module_Init` of SET_PINS, so it leaves an acquired hardware layer acquired; the only
other release is the one of the disconnect. -/
theorem hardware_acquired_iff_connected (w0 w : World) (evs : List ble_evt_t)
    (hconn : w0.epd.conn_handle = BLE_CONN_HANDLE_INVALID)
    (hrel : hw_acquired w0.trace = false)
    (hwf : alternating false evs = true)
    (hrun : run_events w0 evs = .ok w) :
    (∀ pre suf : List ble_evt_t, evs = pre ++ suf →
      ∃ wp : World, run_events w0 pre = .ok wp ∧
        (hw_acquired wp.trace = true ↔ wp.epd.conn_handle ≠ BLE_CONN_HANDLE_INVALID)) ∧
    (∀ (v v1 : World) (handle len : Nat) (data : List Nat),
      ble_epd_on_ble_evt v (some (.BLE_GATTS_EVT_WRITE handle len data)) = .ok v1 →
      (∃ tr : List Effect, v1.trace = v.trace ++ tr ∧
        ((∀ a, tr.foldl hw_step a = a) ∨
         ∃ p : PinConfig, tr = [.DEV_Module_Exit p, .DEV_Module_Init p])) ∧
      (hw_acquired v.trace = true → hw_acquired v1.trace = true)) ∧
    (∀ v : World, (on_disconnect v).trace = v.trace ++ [.DEV_Module_Exit v.pins] ∧
      hw_acquired (on_disconnect v).trace = false ∧
      (on_disconnect v).epd.conn_handle = BLE_CONN_HANDLE_INVALID) := by
  refine ⟨?_, ?_, ?_⟩
  · intro pre suf hsplit
    subst hsplit
    rw [run_events_append, bind_eq_ok_iff] at hrun
    obtain ⟨wp, hpre, -⟩ := hrun
    refine ⟨wp, hpre, ?_⟩
    exact hardware_follows_connection_aux pre false w0 wp
      (alternating_initial_segment suf pre false hwf) hpre hrel
      ⟨fun hne => absurd hconn hne, fun hf => by cases hf⟩
  · intro v v1 handle len data hstep
    simp only [ble_epd_on_ble_evt] at hstep
    exact ⟨on_write_trace _ _ _ _ _ hstep, on_write_keeps_acquired _ _ _ _ _ hstep⟩
  · intro v
    refine ⟨rfl, ?_, rfl⟩
    simp only [on_disconnect, World.emit]
    rw [hw_acquired_append]
    rfl

/-- C20, at a connect, an INIT write, a SET_PINS write, a disconnect and a second
connect: the hardware layer is acquired after the SET_PINS write and released after the
disconnect. -/
theorem hardware_acquired_iff_connected_witness :
    ((run_events (sample_world none false BLE_CONN_HANDLE_INVALID)
        [.BLE_GAP_EVT_CONNECTED 5, .BLE_GATTS_EVT_WRITE 13 2 [2, 1],
         .BLE_GATTS_EVT_WRITE 13 8 [1, 10, 11, 12, 13, 14, 15, 16]]).map
      (fun w => (hw_acquired w.trace, w.epd.conn_handle)) = .ok (true, 5)) ∧
    ((run_events (sample_world none false BLE_CONN_HANDLE_INVALID)
        [.BLE_GAP_EVT_CONNECTED 5, .BLE_GATTS_EVT_WRITE 13 2 [2, 1],
         .BLE_GATTS_EVT_WRITE 13 8 [1, 10, 11, 12, 13, 14, 15, 16],
         .BLE_GAP_EVT_DISCONNECTED]).map
      (fun w => (hw_acquired w.trace, w.epd.conn_handle))
        = .ok (false, BLE_CONN_HANDLE_INVALID)) ∧
    ∀ w, run_events (sample_world none false BLE_CONN_HANDLE_INVALID)
        [.BLE_GAP_EVT_CONNECTED 5, .BLE_GATTS_EVT_WRITE 13 2 [2, 1],
         .BLE_GATTS_EVT_WRITE 13 8 [1, 10, 11, 12, 13, 14, 15, 16],
         .BLE_GAP_EVT_DISCONNECTED, .BLE_GAP_EVT_CONNECTED 6] = .ok w →
      ∀ pre suf : List ble_evt_t,
        [.BLE_GAP_EVT_CONNECTED 5, .BLE_GATTS_EVT_WRITE 13 2 [2, 1],
         .BLE_GATTS_EVT_WRITE 13 8 [1, 10, 11, 12, 13, 14, 15, 16],
         .BLE_GAP_EVT_DISCONNECTED, .BLE_GAP_EVT_CONNECTED 6] = pre ++ suf →
        ∃ wp : World, run_events (sample_world none false BLE_CONN_HANDLE_INVALID) pre
            = .ok wp ∧
          (hw_acquired wp.trace = true ↔ wp.epd.conn_handle ≠ BLE_CONN_HANDLE_INVALID) :=
  ⟨by decide, by decide, fun w hrun =>
    (hardware_acquired_iff_connected (sample_world none false BLE_CONN_HANDLE_INVALID) w
      [.BLE_GAP_EVT_CONNECTED 5, .BLE_GATTS_EVT_WRITE 13 2 [2, 1],
       .BLE_GATTS_EVT_WRITE 13 8 [1, 10, 11, 12, 13, 14, 15, 16],
       .BLE_GAP_EVT_DISCONNECTED, .BLE_GAP_EVT_CONNECTED 6]
      rfl rfl (by decide) hrun).1⟩

end EPD
